import Mathlib

/-!
Verification of the paired-single floating-point execution core of a PowerPC
(Gekko/Broadway) emulator.  The interpreter source (`registerPairedInstructions`
and its helpers) is embedded shallowly: IEEE-754 values are modelled by their
bit patterns as natural numbers (a 64-bit pattern for a `double`, a 32-bit
pattern for a `float`), and all bit-field manipulation is expressed with
division, remainder, multiplication and addition by powers of two (`x / 2^52 %
2^11` is the exponent field of a double, etc.), which is extensionally the same
as the C source's shift-and-mask code.

The host FPU's basic arithmetic (`a + b`, `std::fma`, ...) is an external
interface of the core (the spec lists the required host primitives), so it is
modelled by a `Host` structure of uninterpreted functions returning a result
bit pattern together with the IEEE exception flags the operation raises.  The
double-to-float conversion (`static_cast<float>`, x86 `cvtsd2ss`), whose
behaviour the spec and IEEE-754 fully determine, is implemented concretely.
-/

namespace PairedSingle

/-- Bit length of a natural number, with explicit structural fuel so that the
kernel evaluates it by reduction.  `bitlenAux fuel n` is correct for `n < 2^fuel`. -/
def bitlenAux : Nat → Nat → Nat
  | 0, _ => 0
  | fuel + 1, n => if n = 0 then 0 else bitlenAux fuel (n / 2) + 1

/-- Bit length of a 64-bit-range natural number. -/
def bitlen (n : Nat) : Nat := bitlenAux 64 n

/-! ## Bit-field views of `double` (64-bit) and `float` (32-bit) patterns -/

/-- Sign field of a 64-bit double pattern. -/
def sign64 (x : Nat) : Nat := x / 2 ^ 63 % 2

/-- Biased 11-bit exponent field of a 64-bit double pattern. -/
def exp64 (x : Nat) : Nat := x / 2 ^ 52 % 2 ^ 11

/-- 52-bit mantissa field of a 64-bit double pattern. -/
def mant64 (x : Nat) : Nat := x % 2 ^ 52

/-- Assemble a 64-bit double pattern from its fields. -/
def mk64 (s e m : Nat) : Nat := s * 2 ^ 63 + e * 2 ^ 52 + m

/-- Sign field of a 32-bit float pattern. -/
def sign32 (x : Nat) : Nat := x / 2 ^ 31 % 2

/-- Biased 8-bit exponent field of a 32-bit float pattern. -/
def exp32 (x : Nat) : Nat := x / 2 ^ 23 % 2 ^ 8

/-- 23-bit mantissa field of a 32-bit float pattern. -/
def mant32 (x : Nat) : Nat := x % 2 ^ 23

/-- Assemble a 32-bit float pattern from its fields. -/
def mk32 (s e m : Nat) : Nat := s * 2 ^ 31 + e * 2 ^ 23 + m

/-! ## Classifiers (`utils/floatutils.h`)

Modelled from the spec: `is_nan`, `is_signalling_nan`, `is_infinity`,
`is_zero`, `sign` are predicates over IEEE-754 values; `is_signalling_nan(x)`
is true iff `x` is NaN and its most-significant mantissa bit is 0.  They are
stated here on `double` bit patterns (the interpreter only ever applies them
to doubles). -/

/-- `is_nan` on a double pattern: exponent all ones, nonzero mantissa. -/
def is_nan (x : Nat) : Bool := exp64 x == 2047 && mant64 x != 0

/-- `is_signalling_nan` on a double pattern: NaN with most-significant
mantissa bit (bit 51) clear. -/
def is_signalling_nan (x : Nat) : Bool := is_nan x && mant64 x / 2 ^ 51 % 2 == 0

/-- `is_infinity` on a double pattern. -/
def is_infinity (x : Nat) : Bool := exp64 x == 2047 && mant64 x == 0

/-- `is_zero` on a double pattern: plus or minus zero. -/
def is_zero (x : Nat) : Bool := x % 2 ^ 63 == 0

/-- `std::signbit` on a double pattern. -/
def signbit (x : Nat) : Bool := sign64 x == 1

/-- `is_nan` on a float pattern. -/
def is_nan32 (x : Nat) : Bool := exp32 x == 255 && mant32 x != 0

/-- Quiet-NaN test on a float pattern: NaN with the quiet (most-significant
mantissa) bit set. -/
def is_quiet_nan32 (x : Nat) : Bool := is_nan32 x && mant32 x / 2 ^ 22 % 2 == 1

/-! ## Width conversions (`utils/floatutils.h`)

Modelled from the spec:
* `truncate_double_bits(u64) → u32` is the bit-level truncation
  sign(1) ∥ exp(8, rebiased from 11-bit) ∥ mantissa high-23; it is used for
  preserving the bits of a signalling NaN across a width change, so the
  rebias maps the NaN/infinity exponent `0x7FF` to `0xFF` (and `0` to `0`) —
  this is forced by the spec's statement that `extend_float_nan_bits` is its
  inverse on sNaN payloads.
* `truncate_double(f64) → f32` narrows by that same bit-level truncation of
  the mantissa; the interpreter source comments at the `ps_merge` call site
  that "the mantissa is truncated rather than rounded", and §4.6 of the spec
  agrees.  (§4.1's lone description of it as round-to-nearest-even is
  inconsistent with both and is not followed.)
* `extend_float(f32)` is the bit-exact IEEE widen, preserving NaN payloads by
  bit extension rather than numeric conversion.
* `extend_float_nan_bits(u32) → u64` is the inverse of `truncate_double_bits`
  for sNaN payloads. -/

/-- Bit-level truncation of a double pattern to a float pattern. -/
def truncate_double_bits (v : Nat) : Nat :=
  mk32 (sign64 v)
    (if exp64 v = 2047 then 255 else if exp64 v = 0 then 0 else (exp64 v - 896) % 256)
    (mant64 v / 2 ^ 29)

/-- `truncate_double` on bit patterns: the bit-level truncation above. -/
def truncate_double (v : Nat) : Nat := truncate_double_bits v

/-- Inverse of `truncate_double_bits` on sNaN (and generally f32-ranged)
patterns: rebias the exponent back and re-extend the mantissa. -/
def extend_float_nan_bits (v : Nat) : Nat :=
  mk64 (sign32 v)
    (if exp32 v = 255 then 2047 else if exp32 v = 0 then 0 else exp32 v + 896)
    (mant32 v * 2 ^ 29)

/-- `extend_float`: bit-exact IEEE widen of a float pattern to a double
pattern.  NaN and infinity payloads are extended bit-exactly; denormals are
normalised. -/
def extend_float (v : Nat) : Nat :=
  if exp32 v = 255 then mk64 (sign32 v) 2047 (mant32 v * 2 ^ 29)
  else if exp32 v = 0 then
    if mant32 v = 0 then mk64 (sign32 v) 0 0
    else
      let L := bitlen (mant32 v)
      mk64 (sign32 v) (873 + L) ((mant32 v - 2 ^ (L - 1)) * 2 ^ (53 - L))
  else mk64 (sign32 v) (exp32 v + 896) (mant32 v * 2 ^ 29)

/-- `make_quiet` on a float pattern: set the most-significant mantissa bit
(bit 22).  Modelled from the spec. -/
def make_quiet (v : Nat) : Nat := v / 2 ^ 23 * 2 ^ 23 + 2 ^ 22 + v % 2 ^ 22

/-- `make_nan<float>()`: the quiet-NaN constant.  Modelled from the spec. -/
def make_nan32 : Nat := 0x7FC00000

/-! ## Host IEEE exception flags and the concrete double→float conversion -/

/-- The five host IEEE exception flags (`FE_INVALID`, `FE_DIVBYZERO`,
`FE_OVERFLOW`, `FE_UNDERFLOW`, `FE_INEXACT`). -/
structure HostFlags where
  invalid : Bool := false
  divbyzero : Bool := false
  overflow : Bool := false
  underflow : Bool := false
  inexact : Bool := false
deriving DecidableEq, Repr

/-- Raising flags accumulates them (fenv flags are sticky). -/
def HostFlags.union (a b : HostFlags) : HostFlags :=
  ⟨a.invalid || b.invalid, a.divbyzero || b.divbyzero, a.overflow || b.overflow,
   a.underflow || b.underflow, a.inexact || b.inexact⟩

/-- `static_cast<float>(double)` (x86 `cvtsd2ss`): IEEE round-to-nearest-even
narrowing on bit patterns, returning the result together with the host flags
the conversion raises.  NaNs are quieted with the payload's high bits kept. -/
def cvtsd2ssX (x : Nat) : Nat × HostFlags :=
  let s := sign64 x
  let e := exp64 x
  let m := mant64 x
  if e = 2047 then
    if m = 0 then (mk32 s 255 0, {})
    else (mk32 s 255 (2 ^ 22 + m / 2 ^ 29 % 2 ^ 22),
          { invalid := m / 2 ^ 51 % 2 == 0 })
  else if e = 0 then
    -- a double denormal is far below the least float denormal: round to ±0
    (mk32 s 0 0, { underflow := m != 0, inexact := m != 0 })
  else if 1151 ≤ e then
    (mk32 s 255 0, { overflow := true, inexact := true })
  else if 897 ≤ e then
    let M := 2 ^ 52 + m
    let q := M / 2 ^ 29
    let r := M % 2 ^ 29
    let q1 := q + (if 2 ^ 28 < r ∨ (r = 2 ^ 28 ∧ q % 2 = 1) then 1 else 0)
    if q1 = 2 ^ 24 then
      if e = 1150 then (mk32 s 255 0, { overflow := true, inexact := true })
      else (mk32 s (e - 896 + 1) 0, { inexact := r != 0 })
    else (mk32 s (e - 896) (q1 - 2 ^ 23), { inexact := r != 0 })
  else
    -- result is float-denormal or zero (tiny before rounding)
    let M := 2 ^ 52 + m
    let D := 2 ^ (926 - e)
    let q := M / D
    let r := M % D
    let q1 := q + (if D / 2 < r ∨ (r = D / 2 ∧ q % 2 = 1) then 1 else 0)
    if 2 ^ 23 ≤ q1 then (mk32 s 1 (q1 - 2 ^ 23), { underflow := r != 0, inexact := r != 0 })
    else (mk32 s 0 q1, { underflow := r != 0, inexact := r != 0 })

/-- Value part of the double→float conversion. -/
def cvtsd2ss (x : Nat) : Nat := (cvtsd2ssX x).1

/-- Flags raised by the double→float conversion. -/
def cvtsd2ssFlags (x : Nat) : HostFlags := (cvtsd2ssX x).2

/-- `static_cast<double>(float)` (x86 `cvtss2sd`): numeric widening.  It is
the bit-exact widen except that a signalling NaN is quieted (and raises the
invalid flag, which no caller in this core observes). -/
def cvtss2sd (v : Nat) : Nat :=
  if exp32 v = 255 ∧ mant32 v ≠ 0 ∧ mant32 v / 2 ^ 22 % 2 = 0 then
    mk64 (sign32 v) 2047 ((2 ^ 22 + mant32 v) * 2 ^ 29)
  else extend_float v

-- Sanity checks of the conversions on concrete patterns.
example : cvtsd2ss 0x3FF0000000000000 = 0x3F800000 := by decide
example : cvtsd2ss 0x3FE0000000000000 = 0x3F000000 := by decide
example : cvtsd2ss 0x7FF0000000000000 = 0x7F800000 := by decide
example : extend_float 0x40000000 = 0x4000000000000000 := by decide
example : extend_float 0x3F800000 = 0x3FF0000000000000 := by decide
example : truncate_double 0x3FF8000000000000 = 0x3FC00000 := by decide
example : cvtss2sd 0x7FC00000 = 0x7FF8000000000000 := by decide

/-! ## Architectural state: FPR file, FPSCR, instruction, thread state -/

/-- The FPSCR status/control word, as named sub-fields (§3 of the spec).
`fprf` holds the 5-bit class+sign code of the last result. -/
structure FPSCR where
  vxsnan : Bool
  vxisi : Bool
  vximz : Bool
  vxidi : Bool
  vxzdz : Bool
  vxsqrt : Bool
  vxvc : Bool
  vxsoft : Bool
  vxcvi : Bool
  zx : Bool
  ox : Bool
  ux : Bool
  xx : Bool
  ve : Bool
  ze : Bool
  oe : Bool
  ue : Bool
  xe : Bool
  fx : Bool
  fex : Bool
  vx : Bool
  fprf : Nat
deriving DecidableEq, Repr

/-- A paired-single floating-point register: `ps0` is the 64-bit pattern of
lane 0 (`paired0` viewed as a double, `idw` as its raw bits), `ps1` the
32-bit pattern of lane 1 (`paired1` / `iw_paired1`). -/
structure FPR where
  ps0 : Nat
  ps1 : Nat
deriving DecidableEq, Repr

/-- The decoded instruction fields the paired-single executors consume. -/
structure Instr where
  frA : Nat
  frB : Nat
  frC : Nat
  frD : Nat
  rc : Bool
deriving DecidableEq, Repr

/-- The thread state a paired-single executor observes and mutates: the FPR
file, the FPSCR, the process-wide host IEEE exception flags, and the CR1
shadow written by the record bit. -/
structure ThreadState where
  fpr : Nat → FPR
  fpscr : FPSCR
  henv : HostFlags
  cr1 : Nat

/-- Write one register of the FPR file. -/
def setFpr (s : ThreadState) (r : Nat) (v : FPR) : ThreadState :=
  { s with fpr := fun j => if j = r then v else s.fpr j }

/-- Accumulate host IEEE exception flags raised by an operation. -/
def raiseHost (s : ThreadState) (f : HostFlags) : ThreadState :=
  { s with henv := s.henv.union f }

/-- The host FPU interface the interpreter relies on (spec §6): basic
double-precision arithmetic, a correctly rounded fused multiply-add, and the
single-precision division/square-root used by the estimate instructions.
Each operation returns its result bit pattern and the IEEE flags it raises.
Left uninterpreted: theorems below either hold for every host or assume
named IEEE point-facts about it. -/
structure Host where
  fadd : Nat → Nat → Nat × HostFlags
  fsub : Nat → Nat → Nat × HostFlags
  fmul : Nat → Nat → Nat × HostFlags
  fdiv : Nat → Nat → Nat × HostFlags
  ffma : Nat → Nat → Nat → Nat × HostFlags
  fdiv32 : Nat → Nat → Nat × HostFlags
  fsqrt32 : Nat → Nat × HostFlags

/-! ## FPSCR update engine (`interpreter_float.cpp`)

Modelled from the spec: `updateFPRF`, `updateFPSCR` and
`updateFloatConditionRegister` live in the interpreter's scalar float file,
which is not part of the sources under review; §4.9 and §3 of the spec give
their behaviour, followed here. -/

/-- Modelled from the spec: encode class and sign of a double result into the
5-bit FPRF (qnan, ±∞, ±normal, ±denormal, ±zero), §4.9. -/
def fprfClassify (x : Nat) : Nat :=
  if is_nan x then 0x11
  else if is_infinity x then (if signbit x then 0x9 else 0x5)
  else if is_zero x then (if signbit x then 0x12 else 0x2)
  else if exp64 x = 0 then (if signbit x then 0x18 else 0x14)
  else (if signbit x then 0x8 else 0x4)

/-- Modelled from the spec: `updateFPRF(state, result)` stores the class code
of the result double into FPSCR.FPRF (§4.9). -/
def updateFPRF (s : ThreadState) (x : Nat) : ThreadState :=
  { s with fpscr := { s.fpscr with fprf := fprfClassify x } }

/-- Modelled from the spec: `updateFPSCR(state, oldFPSCR)` reads the host
IEEE flags, accumulates them into the sticky fields, and recomputes the
summary bits VX, FEX and FX (§4.9); it does not clear the host flags (the
dispatcher does that between instructions, §5). -/
def updateFPSCR (s : ThreadState) (old : FPSCR) : ThreadState :=
  let f0 := s.fpscr
  let f1 := { f0 with
    ox := f0.ox || s.henv.overflow
    ux := f0.ux || s.henv.underflow
    zx := f0.zx || s.henv.divbyzero
    xx := f0.xx || s.henv.inexact }
  let vxBit := f1.vxsnan || f1.vxisi || f1.vximz || f1.vxzdz || f1.vxidi ||
    f1.vxvc || f1.vxsoft || f1.vxsqrt || f1.vxcvi
  let fexBit := (vxBit && f1.ve) || (f1.ox && f1.oe) || (f1.ux && f1.ue) ||
    (f1.zx && f1.ze) || (f1.xx && f1.xe)
  let newly := (f1.vxsnan && !old.vxsnan) || (f1.vxisi && !old.vxisi) ||
    (f1.vximz && !old.vximz) || (f1.vxidi && !old.vxidi) ||
    (f1.vxzdz && !old.vxzdz) || (f1.vxsqrt && !old.vxsqrt) ||
    (f1.zx && !old.zx) || (f1.ox && !old.ox) || (f1.ux && !old.ux) ||
    (f1.xx && !old.xx)
  { s with fpscr := { f1 with vx := vxBit, fex := fexBit, fx := f1.fx || newly } }

/-- Modelled from the spec: `updateFloatConditionRegister` mirrors the FPSCR
summary nibble into CR1 (§3). -/
def updateFloatConditionRegister (s : ThreadState) : ThreadState :=
  { s with cr1 :=
      (if s.fpscr.fx then 8 else 0) + (if s.fpscr.fex then 4 else 0) +
      (if s.fpscr.vx then 2 else 0) + (if s.fpscr.ox then 1 else 0) }

/-! ## Register move / sign bit manipulation (`moveGeneric`, `ps_mr/neg/abs/nabs`) -/

/-- The four move modes of `moveGeneric`. -/
inductive MoveMode where
  | direct
  | negate
  | absolute
  | negAbsolute
deriving DecidableEq, Repr

/-- The 32-bit sign-bit operation of `moveGeneric`'s switch: direct /
XOR 0x80000000 / AND ~0x80000000 / OR 0x80000000, written arithmetically. -/
def moveOp32 : MoveMode → Nat → Nat
  | .direct, x => x
  | .negate, x => (1 - sign32 x) * 2 ^ 31 + x % 2 ^ 31
  | .absolute, x => x % 2 ^ 31
  | .negAbsolute, x => 2 ^ 31 + x % 2 ^ 31

/-- `moveGeneric<mode>`: paired sign-bit manipulation with signalling-NaN
preservation of lane 0. -/
def moveGeneric (mode : MoveMode) (s : ThreadState) (i : Instr) : ThreadState :=
  let ps0_nan := is_signalling_nan (s.fpr i.frB).ps0
  let b0 := if ps0_nan then truncate_double_bits (s.fpr i.frB).ps0
            else cvtsd2ss (s.fpr i.frB).ps0
  let s1 := if ps0_nan then s else raiseHost s (cvtsd2ssFlags (s.fpr i.frB).ps0)
  let b1 := (s1.fpr i.frB).ps1
  let d0 := moveOp32 mode b0
  let d1 := moveOp32 mode b1
  let s2 := setFpr s1 i.frD
    ⟨if ps0_nan then extend_float_nan_bits d0 else cvtss2sd d0, d1⟩
  if i.rc then updateFloatConditionRegister s2 else s2

/-- `ps_mr`. -/
def ps_mr (s : ThreadState) (i : Instr) : ThreadState := moveGeneric .direct s i

/-- `ps_neg`. -/
def ps_neg (s : ThreadState) (i : Instr) : ThreadState := moveGeneric .negate s i

/-- `ps_abs`. -/
def ps_abs (s : ThreadState) (i : Instr) : ThreadState := moveGeneric .absolute s i

/-- `ps_nabs`. -/
def ps_nabs (s : ThreadState) (i : Instr) : ThreadState :=
  moveGeneric .negAbsolute s i

/-! ## Paired-single arithmetic (`psArithSingle`, `psArithGeneric`) -/

/-- The operator parameter of `psArithSingle`. -/
inductive PSArithOperator where
  | PSAdd
  | PSSub
  | PSMul
  | PSDiv
deriving DecidableEq, Repr

export PSArithOperator (PSAdd PSSub PSMul PSDiv)

/-- The per-slot exception flags an instruction raises (the FMA family leaves
`vxidi`, `vxzdz`, `vxsqrt` and `zx` clear; only `ps_rsqrte` raises `vxsqrt`). -/
structure ArithFlags where
  vxsnan : Bool
  vxisi : Bool
  vximz : Bool
  vxidi : Bool
  vxzdz : Bool
  vxsqrt : Bool
  zx : Bool
deriving DecidableEq, Repr

/-- Union of two flag records (per-slot flags accumulate). -/
def ArithFlags.union (f g : ArithFlags) : ArithFlags :=
  ⟨f.vxsnan || g.vxsnan, f.vxisi || g.vxisi, f.vximz || g.vximz,
   f.vxidi || g.vxidi, f.vxzdz || g.vxzdz, f.vxsqrt || g.vxsqrt, f.zx || g.zx⟩

/-- Any invalid-operation sub-flag raised. -/
def ArithFlags.vxAny (f : ArithFlags) : Bool :=
  f.vxsnan || f.vxisi || f.vximz || f.vxidi || f.vxzdz || f.vxsqrt

/-- The flag computation of `psArithSingle` (its `switch (op)` together with
the preceding `vxsnan` line). -/
def arithFlags (op : PSArithOperator) (a b : Nat) : ArithFlags :=
  let vxsnan := is_signalling_nan a || is_signalling_nan b
  match op with
  | PSAdd =>
    ⟨vxsnan, is_infinity a && is_infinity b && (signbit a != signbit b),
     false, false, false, false, false⟩
  | PSSub =>
    ⟨vxsnan, is_infinity a && is_infinity b && (signbit a == signbit b),
     false, false, false, false, false⟩
  | PSMul =>
    ⟨vxsnan, false, (is_infinity a && is_zero b) || (is_zero a && is_infinity b),
     false, false, false, false⟩
  | PSDiv =>
    let vxzdz := is_zero a && is_zero b
    ⟨vxsnan, false, false, is_infinity a && is_infinity b, vxzdz, false,
     !(vxzdz || vxsnan) && is_zero b⟩

/-- The `|=` lines of `psArithSingle` accumulating raised flags into FPSCR. -/
def raiseArithFpscr (s : ThreadState) (f : ArithFlags) : ThreadState :=
  { s with fpscr := { s.fpscr with
      vxsnan := s.fpscr.vxsnan || f.vxsnan
      vxisi := s.fpscr.vxisi || f.vxisi
      vximz := s.fpscr.vximz || f.vximz
      vxidi := s.fpscr.vxidi || f.vxidi
      vxzdz := s.fpscr.vxzdz || f.vxzdz
      vxsqrt := s.fpscr.vxsqrt || f.vxsqrt
      zx := s.fpscr.zx || f.zx } }

/-- Operand `a` of `psArithSingle`: lane `slotA` of frA. -/
def arithSlotA (s : ThreadState) (i : Instr) (slotA : Nat) : Nat :=
  if slotA = 0 then (s.fpr i.frA).ps0 else extend_float (s.fpr i.frA).ps1

/-- Operand `b` of `psArithSingle`: lane `slotB` of frC for `ps_mul`
variants, of frB otherwise. -/
def arithSlotB (op : PSArithOperator) (s : ThreadState) (i : Instr)
    (slotB : Nat) : Nat :=
  let reg := if op = PSMul then i.frC else i.frB
  if slotB = 0 then (s.fpr reg).ps0 else extend_float (s.fpr reg).ps1

/-- Dispatch to the host double-precision operation for an operator. -/
def hostArithOp (h : Host) : PSArithOperator → Nat → Nat → Nat × HostFlags
  | PSAdd => h.fadd
  | PSSub => h.fsub
  | PSMul => h.fmul
  | PSDiv => h.fdiv

/-- `psArithSingle<op, slotA, slotB>`: computes one result slot.  Returns the
updated state and `some` result float pattern, or `none` when an enabled
exception aborts the write. -/
def psArithSingle (h : Host) (op : PSArithOperator) (slotA slotB : Nat)
    (s : ThreadState) (i : Instr) : ThreadState × Option Nat :=
  let a := arithSlotA s i slotA
  let b := arithSlotB op s i slotB
  let fl := arithFlags op a b
  let s1 := raiseArithFpscr s fl
  if (fl.vxAny && s1.fpscr.ve) || (fl.zx && s1.fpscr.ze) then (s1, none)
  else if is_nan a then (s1, some (make_quiet (truncate_double a)))
  else if is_nan b then (s1, some (make_quiet (truncate_double b)))
  else if fl.vxisi || fl.vximz || fl.vxidi || fl.vxzdz then (s1, some make_nan32)
  else
    let rh := hostArithOp h op a b
    (raiseHost s1 (rh.2.union (cvtsd2ssFlags rh.1)), some (cvtsd2ss rh.1))

/-- `psArithGeneric<op, slotB0, slotB1>`: runs both slots, commits both lanes
of frD only when neither slot aborted, updates FPRF from slot 0 and FPSCR. -/
def psArithGeneric (h : Host) (op : PSArithOperator) (slotB0 slotB1 : Nat)
    (s : ThreadState) (i : Instr) : ThreadState :=
  let old := s.fpscr
  let p0 := psArithSingle h op 0 slotB0 s i
  let p1 := psArithSingle h op 1 slotB1 p0.1 i
  let s2 := match p0.2, p1.2 with
    | some d0, some d1 => setFpr p1.1 i.frD ⟨extend_float d0, d1⟩
    | _, _ => p1.1
  let s3 := match p0.2 with
    | some d0 => updateFPRF s2 (extend_float d0)
    | none => s2
  let s4 := updateFPSCR s3 old
  if i.rc then updateFloatConditionRegister s4 else s4

/-- `ps_add`. -/
def ps_add (h : Host) (s : ThreadState) (i : Instr) : ThreadState :=
  psArithGeneric h PSAdd 0 1 s i

/-- `ps_sub`. -/
def ps_sub (h : Host) (s : ThreadState) (i : Instr) : ThreadState :=
  psArithGeneric h PSSub 0 1 s i

/-- `ps_mul`. -/
def ps_mul (h : Host) (s : ThreadState) (i : Instr) : ThreadState :=
  psArithGeneric h PSMul 0 1 s i

/-- `ps_muls0`: both slots use C.0. -/
def ps_muls0 (h : Host) (s : ThreadState) (i : Instr) : ThreadState :=
  psArithGeneric h PSMul 0 0 s i

/-- `ps_muls1`: both slots use C.1. -/
def ps_muls1 (h : Host) (s : ThreadState) (i : Instr) : ThreadState :=
  psArithGeneric h PSMul 1 1 s i

/-- `ps_div`. -/
def ps_div (h : Host) (s : ThreadState) (i : Instr) : ThreadState :=
  psArithGeneric h PSDiv 0 1 s i

/-! ## Sum family (`psSumGeneric`, `ps_sum0`, `ps_sum1`) -/

/-- `psSumGeneric<slot>`: cross-slot add `A.paired0 + B.paired1`; on success
the un-summed slot is filled from frC — for `ps_sum1` by a double→float
conversion whose effect on the host FE_INEXACT / FE_OVERFLOW flags is undone
(`fetestexcept` before, conditional `feclearexcept` after). -/
def psSumGeneric (h : Host) (slot : Nat) (s : ThreadState) (i : Instr) :
    ThreadState :=
  let old := s.fpscr
  let p := psArithSingle h PSAdd 0 1 s i
  let s2 := match p.2 with
    | some d =>
      let sa := updateFPRF p.1 (extend_float d)
      if slot = 0 then
        setFpr sa i.frD ⟨extend_float d, (sa.fpr i.frC).ps1⟩
      else
        if is_nan (sa.fpr i.frC).ps0 then
          setFpr sa i.frD ⟨extend_float (truncate_double (sa.fpr i.frC).ps0), d⟩
        else
          let inexact0 := sa.henv.inexact
          let overflow0 := sa.henv.overflow
          let c0 := (sa.fpr i.frC).ps0
          let sb := raiseHost sa (cvtsd2ssFlags c0)
          let sc := { sb with henv := { sb.henv with
              inexact := if inexact0 then sb.henv.inexact else false
              overflow := if overflow0 then sb.henv.overflow else false } }
          setFpr sc i.frD ⟨extend_float (cvtsd2ss c0), d⟩
    | none => p.1
  let s3 := updateFPSCR s2 old
  if i.rc then updateFloatConditionRegister s3 else s3

/-- `ps_sum0`. -/
def ps_sum0 (h : Host) (s : ThreadState) (i : Instr) : ThreadState :=
  psSumGeneric h 0 s i

/-- `ps_sum1`. -/
def ps_sum1 (h : Host) (s : ThreadState) (i : Instr) : ThreadState :=
  psSumGeneric h 1 s i

/-! ## Fused multiply-add family (`fmaSingle`, `fmaGeneric`) -/

/-- Sign negation of a double pattern (`-b` on the addend). -/
def neg64 (x : Nat) : Nat := (1 - sign64 x) * 2 ^ 63 + x % 2 ^ 63

/-- Sign negation of a float pattern (`d = -d` for the Negate variants). -/
def neg32 (x : Nat) : Nat := (1 - sign32 x) * 2 ^ 31 + x % 2 ^ 31

/-- The addend of `fmaSingle`: `-b` when FMASubtract is set, else `b`. -/
def fmaAddend (sub : Bool) (b : Nat) : Nat := if sub then neg64 b else b

/-- The flag computation of `fmaSingle` (vxsnan / vxisi / vximz). -/
def fmaFlags (a b c addend : Nat) : ArithFlags :=
  ⟨is_signalling_nan a || is_signalling_nan b || is_signalling_nan c,
   (is_infinity a || is_infinity c) && is_infinity b &&
     ((signbit a != signbit c) != signbit addend),
   (is_infinity a && is_zero c) || (is_zero a && is_infinity c),
   false, false, false, false⟩

/-- Operand `a` of `fmaSingle`: lane `slotAB` of frA. -/
def fmaSlotA (s : ThreadState) (i : Instr) (slotAB : Nat) : Nat :=
  if slotAB = 0 then (s.fpr i.frA).ps0 else extend_float (s.fpr i.frA).ps1

/-- Operand `b` of `fmaSingle`: lane `slotAB` of frB. -/
def fmaSlotB (s : ThreadState) (i : Instr) (slotAB : Nat) : Nat :=
  if slotAB = 0 then (s.fpr i.frB).ps0 else extend_float (s.fpr i.frB).ps1

/-- Operand `c` of `fmaSingle`. -/
def fmaSlotC (s : ThreadState) (i : Instr) (slotC : Nat) : Nat :=
  if slotC = 0 then (s.fpr i.frC).ps0 else extend_float (s.fpr i.frC).ps1

/-- `fmaSingle<flags, slotAB, slotC>` with the flag bits split out as
`sub` (FMASubtract) and `neg` (FMANegate). -/
def fmaSingle (h : Host) (sub neg : Bool) (slotAB slotC : Nat)
    (s : ThreadState) (i : Instr) : ThreadState × Option Nat :=
  let a := fmaSlotA s i slotAB
  let b := fmaSlotB s i slotAB
  let c := fmaSlotC s i slotC
  let addend := fmaAddend sub b
  let fl := fmaFlags a b c addend
  let s1 := raiseArithFpscr s fl
  if fl.vxAny && s1.fpscr.ve then (s1, none)
  else if is_nan a then (s1, some (make_quiet (truncate_double a)))
  else if is_nan b then (s1, some (make_quiet (truncate_double b)))
  else if is_nan c then (s1, some (make_quiet (truncate_double c)))
  else if fl.vxisi || fl.vximz then (s1, some make_nan32)
  else
    let rh := h.ffma a c addend
    let d := cvtsd2ss rh.1
    (raiseHost s1 (rh.2.union (cvtsd2ssFlags rh.1)),
     some (if neg then neg32 d else d))

/-- `fmaGeneric<flags, slotC0, slotC1>`. -/
def fmaGeneric (h : Host) (sub neg : Bool) (slotC0 slotC1 : Nat)
    (s : ThreadState) (i : Instr) : ThreadState :=
  let old := s.fpscr
  let p0 := fmaSingle h sub neg 0 slotC0 s i
  let p1 := fmaSingle h sub neg 1 slotC1 p0.1 i
  let s2 := match p0.2, p1.2 with
    | some d0, some d1 => setFpr p1.1 i.frD ⟨extend_float d0, d1⟩
    | _, _ => p1.1
  let s3 := match p0.2 with
    | some d0 => updateFPRF s2 (extend_float d0)
    | none => s2
  let s4 := updateFPSCR s3 old
  if i.rc then updateFloatConditionRegister s4 else s4

/-- `ps_madd`. -/
def ps_madd (h : Host) (s : ThreadState) (i : Instr) : ThreadState :=
  fmaGeneric h false false 0 1 s i

/-- `ps_madds0`. -/
def ps_madds0 (h : Host) (s : ThreadState) (i : Instr) : ThreadState :=
  fmaGeneric h false false 0 0 s i

/-- `ps_madds1`. -/
def ps_madds1 (h : Host) (s : ThreadState) (i : Instr) : ThreadState :=
  fmaGeneric h false false 1 1 s i

/-- `ps_msub`. -/
def ps_msub (h : Host) (s : ThreadState) (i : Instr) : ThreadState :=
  fmaGeneric h true false 0 1 s i

/-- `ps_nmadd`. -/
def ps_nmadd (h : Host) (s : ThreadState) (i : Instr) : ThreadState :=
  fmaGeneric h false true 0 1 s i

/-- `ps_nmsub`. -/
def ps_nmsub (h : Host) (s : ThreadState) (i : Instr) : ThreadState :=
  fmaGeneric h true true 0 1 s i

/-! ## Merge family (`mergeGeneric`, `ps_merge00/01/10/11`) -/

/-- `mergeGeneric<flags>` with the flag bits split out (`v0` = MergeValue0,
`v1` = MergeValue1).  When inserting the double of slot 0 into output lane 1
the mantissa is truncated rather than rounded. -/
def mergeGeneric (v0 v1 : Bool) (s : ThreadState) (i : Instr) : ThreadState :=
  let d0 := if v0 then (s.fpr i.frA).ps1
            else if !is_signalling_nan (s.fpr i.frA).ps0 then
              cvtsd2ss (s.fpr i.frA).ps0
            else truncate_double (s.fpr i.frA).ps0
  let s1 := if v0 || is_signalling_nan (s.fpr i.frA).ps0 then s
            else raiseHost s (cvtsd2ssFlags (s.fpr i.frA).ps0)
  let d1 := if v1 then (s1.fpr i.frB).ps1 else truncate_double (s1.fpr i.frB).ps0
  let s2 := setFpr s1 i.frD ⟨extend_float d0, d1⟩
  if i.rc then updateFloatConditionRegister s2 else s2

/-- `ps_merge00`. -/
def ps_merge00 (s : ThreadState) (i : Instr) : ThreadState :=
  mergeGeneric false false s i

/-- `ps_merge01`. -/
def ps_merge01 (s : ThreadState) (i : Instr) : ThreadState :=
  mergeGeneric false true s i

/-- `ps_merge11`. -/
def ps_merge11 (s : ThreadState) (i : Instr) : ThreadState :=
  mergeGeneric true true s i

/-- `ps_merge10`. -/
def ps_merge10 (s : ThreadState) (i : Instr) : ThreadState :=
  mergeGeneric true false s i

/-! ## Estimate family (`ps_res`, `ps_rsqrte`) -/

/-- `ps_res`: paired reciprocal.  Per-lane gating; a gate on either lane
suppresses the write of both lanes. -/
def ps_res (h : Host) (s : ThreadState) (i : Instr) : ThreadState :=
  let b0 := (s.fpr i.frB).ps0
  let b1 := extend_float (s.fpr i.frB).ps1
  let vxsnan0 := is_signalling_nan b0
  let vxsnan1 := is_signalling_nan b1
  let zx0 := is_zero b0
  let zx1 := is_zero b1
  let old := s.fpscr
  let s1 := { s with fpscr := { s.fpscr with
      vxsnan := s.fpscr.vxsnan || (vxsnan0 || vxsnan1)
      zx := s.fpscr.zx || (zx0 || zx1) } }
  let r0 : Bool × Nat × ThreadState :=
    if (vxsnan0 && s1.fpscr.ve) || (zx0 && s1.fpscr.ze) then (false, 0, s1)
    else
      let dv : Nat × ThreadState :=
        if is_nan b0 then (make_quiet (truncate_double b0), s1)
        else if vxsnan0 then (make_nan32, s1)
        else
          let rh := h.fdiv32 0x3F800000 (cvtsd2ss b0)
          (rh.1, raiseHost s1 ((cvtsd2ssFlags b0).union rh.2))
      (true, dv.1, updateFPRF dv.2 (cvtss2sd dv.1))
  let s2 := r0.2.2
  let r1 : Bool × Nat × ThreadState :=
    if (vxsnan1 && s2.fpscr.ve) || (zx1 && s2.fpscr.ze) then (false, 0, s2)
    else if is_nan b1 then (true, make_quiet (truncate_double b1), s2)
    else if vxsnan1 then (true, make_nan32, s2)
    else
      let rh := h.fdiv32 0x3F800000 (cvtsd2ss b1)
      (true, rh.1, raiseHost s2 ((cvtsd2ssFlags b1).union rh.2))
  let s3 := r1.2.2
  let s4 := if r0.1 && r1.1 then setFpr s3 i.frD ⟨extend_float r0.2.1, r1.2.1⟩
            else s3
  let s5 := updateFPSCR s4 old
  if i.rc then updateFloatConditionRegister s5 else s5

/-- `ps_rsqrte`: paired reciprocal square root, with the additional `vxsqrt`
flag for negative nonzero operands. -/
def ps_rsqrte (h : Host) (s : ThreadState) (i : Instr) : ThreadState :=
  let b0 := (s.fpr i.frB).ps0
  let b1 := extend_float (s.fpr i.frB).ps1
  let vxsnan0 := is_signalling_nan b0
  let vxsnan1 := is_signalling_nan b1
  let vxsqrt0 := !vxsnan0 && signbit b0 && !is_zero b0
  let vxsqrt1 := !vxsnan1 && signbit b1 && !is_zero b1
  let zx0 := is_zero b0
  let zx1 := is_zero b1
  let old := s.fpscr
  let s1 := { s with fpscr := { s.fpscr with
      vxsnan := s.fpscr.vxsnan || (vxsnan0 || vxsnan1)
      vxsqrt := s.fpscr.vxsqrt || (vxsqrt0 || vxsqrt1)
      zx := s.fpscr.zx || (zx0 || zx1) } }
  let r0 : Bool × Nat × ThreadState :=
    if ((vxsnan0 || vxsqrt0) && s1.fpscr.ve) || (zx0 && s1.fpscr.ze) then
      (false, 0, s1)
    else
      let dv : Nat × ThreadState :=
        if is_nan b0 then (make_quiet (truncate_double b0), s1)
        else if vxsnan0 || vxsqrt0 then (make_nan32, s1)
        else
          let rq := h.fsqrt32 (cvtsd2ss b0)
          let rh := h.fdiv32 0x3F800000 rq.1
          (rh.1, raiseHost s1 (((cvtsd2ssFlags b0).union rq.2).union rh.2))
      (true, dv.1, updateFPRF dv.2 (cvtss2sd dv.1))
  let s2 := r0.2.2
  let r1 : Bool × Nat × ThreadState :=
    if ((vxsnan1 || vxsqrt1) && s2.fpscr.ve) || (zx1 && s2.fpscr.ze) then
      (false, 0, s2)
    else if is_nan b1 then (true, make_quiet (truncate_double b1), s2)
    else if vxsnan1 || vxsqrt1 then (true, make_nan32, s2)
    else
      let rq := h.fsqrt32 (cvtsd2ss b1)
      let rh := h.fdiv32 0x3F800000 rq.1
      (true, rh.1, raiseHost s2 (((cvtsd2ssFlags b1).union rq.2).union rh.2))
  let s3 := r1.2.2
  let s4 := if r0.1 && r1.1 then setFpr s3 i.frD ⟨extend_float r0.2.1, r1.2.1⟩
            else s3
  let s5 := updateFPSCR s4 old
  if i.rc then updateFloatConditionRegister s5 else s5

/-! ## Select (`ps_sel`) -/

/-- IEEE `x >= 0` on a float pattern: false for NaN, true for `-0.0`. -/
def ge0_32 (x : Nat) : Bool := !is_nan32 x && (sign32 x == 0 || x % 2 ^ 31 == 0)

/-- `ps_sel`: per slot `d.i = (A.i >= 0) ? C.i : B.i`.  The C source reads
every lane into a `float` local, so lane 0 passes through the
double→float→double numeric conversions. -/
def ps_sel (s : ThreadState) (i : Instr) : ThreadState :=
  let a0 := cvtsd2ss (s.fpr i.frA).ps0
  let a1 := (s.fpr i.frA).ps1
  let b0 := cvtsd2ss (s.fpr i.frB).ps0
  let b1 := (s.fpr i.frB).ps1
  let c0 := cvtsd2ss (s.fpr i.frC).ps0
  let c1 := (s.fpr i.frC).ps1
  let s1 := raiseHost s
    (((cvtsd2ssFlags (s.fpr i.frA).ps0).union
      (cvtsd2ssFlags (s.fpr i.frB).ps0)).union
      (cvtsd2ssFlags (s.fpr i.frC).ps0))
  let d1 := if ge0_32 a1 then c1 else b1
  let d0 := if ge0_32 a0 then c0 else b0
  let s2 := setFpr s1 i.frD ⟨cvtss2sd d0, d1⟩
  if i.rc then updateFloatConditionRegister s2 else s2

/-! ## The gated instructions as one family -/

/-- The paired-single instructions that write frD under an exception gate. -/
inductive PSKind where
  | add | sub | mul | div | muls0 | muls1
  | sum0 | sum1
  | madd | madds0 | madds1 | msub | nmadd | nmsub
  | res | rsqrte
deriving DecidableEq, Repr

/-- Execute one gated paired-single instruction. -/
def execPS : PSKind → Host → ThreadState → Instr → ThreadState
  | .add, h, s, i => ps_add h s i
  | .sub, h, s, i => ps_sub h s i
  | .mul, h, s, i => ps_mul h s i
  | .div, h, s, i => ps_div h s i
  | .muls0, h, s, i => ps_muls0 h s i
  | .muls1, h, s, i => ps_muls1 h s i
  | .sum0, h, s, i => ps_sum0 h s i
  | .sum1, h, s, i => ps_sum1 h s i
  | .madd, h, s, i => ps_madd h s i
  | .madds0, h, s, i => ps_madds0 h s i
  | .madds1, h, s, i => ps_madds1 h s i
  | .msub, h, s, i => ps_msub h s i
  | .nmadd, h, s, i => ps_nmadd h s i
  | .nmsub, h, s, i => ps_nmsub h s i
  | .res, h, s, i => ps_res h s i
  | .rsqrte, h, s, i => ps_rsqrte h s i

/-! ## Write gating: per-slot flags, gate predicate, committed value

These definitions recompute, per instruction kind, the per-slot exception
flags, whether an enabled exception gates the write, and the register pair
the instruction commits when it is not gated.  They reuse the same slot
functions the executors are built from. -/

/-- No flags raised (the absent second slot of the sum family). -/
def emptyFlags : ArithFlags := ⟨false, false, false, false, false, false, false⟩

/-- Per-slot flags of `ps_res` (vxsnan and zx per lane). -/
def resFlags (b : Nat) : ArithFlags :=
  ⟨is_signalling_nan b, false, false, false, false, false, is_zero b⟩

/-- Per-slot flags of `ps_rsqrte` (vxsnan, vxsqrt and zx per lane). -/
def rsqrteFlags (b : Nat) : ArithFlags :=
  ⟨is_signalling_nan b, false, false, false, false,
   !is_signalling_nan b && signbit b && !is_zero b, is_zero b⟩

/-- Per-slot flags of `fmaSingle`. -/
def fmaSlotFlags (sub : Bool) (slotAB slotC : Nat) (s : ThreadState)
    (i : Instr) : ArithFlags :=
  let a := fmaSlotA s i slotAB
  let b := fmaSlotB s i slotAB
  fmaFlags a b (fmaSlotC s i slotC) (fmaAddend sub b)

/-- The two per-slot flag records of `psArithGeneric<op, b0, b1>`. -/
def arithSlotFlagsPair (op : PSArithOperator) (b0 b1 : Nat) (s : ThreadState)
    (i : Instr) : ArithFlags × ArithFlags :=
  (arithFlags op (arithSlotA s i 0) (arithSlotB op s i b0),
   arithFlags op (arithSlotA s i 1) (arithSlotB op s i b1))

/-- The per-slot exception flags each gated instruction raises. -/
def psSlotFlags : PSKind → ThreadState → Instr → ArithFlags × ArithFlags
  | .add, s, i => arithSlotFlagsPair PSAdd 0 1 s i
  | .sub, s, i => arithSlotFlagsPair PSSub 0 1 s i
  | .mul, s, i => arithSlotFlagsPair PSMul 0 1 s i
  | .div, s, i => arithSlotFlagsPair PSDiv 0 1 s i
  | .muls0, s, i => arithSlotFlagsPair PSMul 0 0 s i
  | .muls1, s, i => arithSlotFlagsPair PSMul 1 1 s i
  | .sum0, s, i =>
    (arithFlags PSAdd (arithSlotA s i 0) (arithSlotB PSAdd s i 1), emptyFlags)
  | .sum1, s, i =>
    (arithFlags PSAdd (arithSlotA s i 0) (arithSlotB PSAdd s i 1), emptyFlags)
  | .madd, s, i => (fmaSlotFlags false 0 0 s i, fmaSlotFlags false 1 1 s i)
  | .madds0, s, i => (fmaSlotFlags false 0 0 s i, fmaSlotFlags false 1 0 s i)
  | .madds1, s, i => (fmaSlotFlags false 0 1 s i, fmaSlotFlags false 1 1 s i)
  | .msub, s, i => (fmaSlotFlags true 0 0 s i, fmaSlotFlags true 1 1 s i)
  | .nmadd, s, i => (fmaSlotFlags false 0 0 s i, fmaSlotFlags false 1 1 s i)
  | .nmsub, s, i => (fmaSlotFlags true 0 0 s i, fmaSlotFlags true 1 1 s i)
  | .res, s, i =>
    (resFlags (s.fpr i.frB).ps0, resFlags (extend_float (s.fpr i.frB).ps1))
  | .rsqrte, s, i =>
    (rsqrteFlags (s.fpr i.frB).ps0, rsqrteFlags (extend_float (s.fpr i.frB).ps1))

/-- A slot's write gate: an enabled invalid-operation flag or an enabled
zero-divide flag. -/
def gateOf (fl : ArithFlags) (f : FPSCR) : Bool :=
  (fl.vxAny && f.ve) || (fl.zx && f.ze)

/-- Whether an enabled exception gate triggers in either slot. -/
def psGateTriggered (k : PSKind) (s : ThreadState) (i : Instr) : Bool :=
  gateOf (psSlotFlags k s i).1 s.fpscr || gateOf (psSlotFlags k s i).2 s.fpscr

/-- The union of the flags both slots raise. -/
def psRaisedFlags (k : PSKind) (s : ThreadState) (i : Instr) : ArithFlags :=
  ((psSlotFlags k s i).1).union (psSlotFlags k s i).2

/-- The pair `psArithGeneric` commits when not gated. -/
def arithWritten (h : Host) (op : PSArithOperator) (b0 b1 : Nat)
    (s : ThreadState) (i : Instr) : FPR :=
  let p0 := psArithSingle h op 0 b0 s i
  let p1 := psArithSingle h op 1 b1 p0.1 i
  ⟨extend_float (p0.2.getD 0), p1.2.getD 0⟩

/-- The pair `psSumGeneric` commits when not gated. -/
def sumWritten (h : Host) (slot : Nat) (s : ThreadState) (i : Instr) : FPR :=
  let p := psArithSingle h PSAdd 0 1 s i
  let d := p.2.getD 0
  if slot = 0 then ⟨extend_float d, (s.fpr i.frC).ps1⟩
  else
    ⟨extend_float (if is_nan (s.fpr i.frC).ps0 then
        truncate_double (s.fpr i.frC).ps0 else cvtsd2ss (s.fpr i.frC).ps0), d⟩

/-- The pair `fmaGeneric` commits when not gated. -/
def fmaWritten (h : Host) (sub neg : Bool) (c0 c1 : Nat) (s : ThreadState)
    (i : Instr) : FPR :=
  let p0 := fmaSingle h sub neg 0 c0 s i
  let p1 := fmaSingle h sub neg 1 c1 p0.1 i
  ⟨extend_float (p0.2.getD 0), p1.2.getD 0⟩

/-- The slot value `ps_res` computes when the lane is not gated. -/
def resSlotVal (h : Host) (b : Nat) : Nat :=
  if is_nan b then make_quiet (truncate_double b)
  else if is_signalling_nan b then make_nan32
  else (h.fdiv32 0x3F800000 (cvtsd2ss b)).1

/-- The slot value `ps_rsqrte` computes when the lane is not gated. -/
def rsqrteSlotVal (h : Host) (b : Nat) : Nat :=
  if is_nan b then make_quiet (truncate_double b)
  else if is_signalling_nan b || (!is_signalling_nan b && signbit b && !is_zero b) then
    make_nan32
  else (h.fdiv32 0x3F800000 (h.fsqrt32 (cvtsd2ss b)).1).1

/-- The register pair each gated instruction commits when no gate triggers. -/
def psWrittenValue : PSKind → Host → ThreadState → Instr → FPR
  | .add, h, s, i => arithWritten h PSAdd 0 1 s i
  | .sub, h, s, i => arithWritten h PSSub 0 1 s i
  | .mul, h, s, i => arithWritten h PSMul 0 1 s i
  | .div, h, s, i => arithWritten h PSDiv 0 1 s i
  | .muls0, h, s, i => arithWritten h PSMul 0 0 s i
  | .muls1, h, s, i => arithWritten h PSMul 1 1 s i
  | .sum0, h, s, i => sumWritten h 0 s i
  | .sum1, h, s, i => sumWritten h 1 s i
  | .madd, h, s, i => fmaWritten h false false 0 1 s i
  | .madds0, h, s, i => fmaWritten h false false 0 0 s i
  | .madds1, h, s, i => fmaWritten h false false 1 1 s i
  | .msub, h, s, i => fmaWritten h true false 0 1 s i
  | .nmadd, h, s, i => fmaWritten h false true 0 1 s i
  | .nmsub, h, s, i => fmaWritten h true true 0 1 s i
  | .res, h, s, i =>
    ⟨extend_float (resSlotVal h (s.fpr i.frB).ps0),
     resSlotVal h (extend_float (s.fpr i.frB).ps1)⟩
  | .rsqrte, h, s, i =>
    ⟨extend_float (rsqrteSlotVal h (s.fpr i.frB).ps0),
     rsqrteSlotVal h (extend_float (s.fpr i.frB).ps1)⟩

/-- Sticky accumulation of the per-instruction flags `fl` from state `s` to
state `s'`: the invalid-operation sub-flags are exactly OR-accumulated, and
the zero-divide sticky bit retains both its old value and the raised flag
(`updateFPSCR` may additionally fold in a host divide-by-zero flag). -/
def stickyEq (s s' : ThreadState) (fl : ArithFlags) : Prop :=
  s'.fpscr.vxsnan = (s.fpscr.vxsnan || fl.vxsnan) ∧
  s'.fpscr.vxisi = (s.fpscr.vxisi || fl.vxisi) ∧
  s'.fpscr.vximz = (s.fpscr.vximz || fl.vximz) ∧
  s'.fpscr.vxidi = (s.fpscr.vxidi || fl.vxidi) ∧
  s'.fpscr.vxzdz = (s.fpscr.vxzdz || fl.vxzdz) ∧
  s'.fpscr.vxsqrt = (s.fpscr.vxsqrt || fl.vxsqrt) ∧
  ((s.fpscr.zx || fl.zx) = true → s'.fpscr.zx = true)

/-! ## Concrete evaluation helpers

A zeroed FPSCR and thread state, and a small concrete host used to evaluate
theorems with host hypotheses at concrete inputs.  `pointHost` returns the
IEEE-754 result at the few points the concrete scenarios exercise and zero
elsewhere; the scenario theorems assume only those point values. -/

/-- FPSCR with all flags, enables and summary bits clear. -/
def fpscr0 : FPSCR :=
  ⟨false, false, false, false, false, false, false, false, false, false,
   false, false, false, false, false, false, false, false, false, false,
   false, 0⟩

/-- Thread state with zeroed registers, FPSCR and host environment. -/
def state0 : ThreadState :=
  { fpr := fun _ => ⟨0, 0⟩, fpscr := fpscr0, henv := {}, cr1 := 0 }

/-- A concrete host returning the IEEE results at the points the scenario
theorems use: `1.0 / +0.0 = +inf` (raising the div-by-zero flag) and
`1.0 / 2.0 = 0.5`. -/
def pointHost : Host where
  fadd := fun _ _ => (0, {})
  fsub := fun _ _ => (0, {})
  fmul := fun _ _ => (0, {})
  fdiv := fun a b =>
    if a = 0x3FF0000000000000 ∧ b = 0 then
      (0x7FF0000000000000, { divbyzero := true })
    else if a = 0x3FF0000000000000 ∧ b = 0x4000000000000000 then
      (0x3FE0000000000000, {})
    else (0, {})
  ffma := fun _ _ _ => (0, {})
  fdiv32 := fun _ _ => (0, {})
  fsqrt32 := fun _ => (0, {})

/-! ## Value model of the scalar fused-multiply-add paths (`jit_float.cpp`)

For the JIT-versus-interpreter comparison the relevant data are finite
floating-point *values*, modelled as dyadic rationals `m * 2^e`, together
with IEEE round-to-nearest-even at 53 bits (a double register) and 24 bits
(the narrow to single).  NaN/infinity handling and exponent-range limits are
orthogonal to the claim (which restricts itself to clean inputs in normal
range) and are not modelled here. -/

/-- A dyadic rational `m * 2^e`. -/
structure Dy where
  m : Int
  e : Int
deriving DecidableEq, Repr

/-- Bit length with generous fuel (correct below `2^128`, ample for all
values these theorems evaluate). -/
def bitlen128 (n : Nat) : Nat := bitlenAux 128 n

/-- Normalisation: strip trailing zero bits of the mantissa. -/
def dyNormAux : Nat → Int → Int → Dy
  | 0, m, e => ⟨m, e⟩
  | fuel + 1, m, e =>
    if m ≠ 0 ∧ m % 2 = 0 then dyNormAux fuel (m / 2) (e + 1) else ⟨m, e⟩

/-- Canonical form of a dyadic rational: zero is `⟨0, 0⟩`, otherwise the
mantissa is odd. -/
def dyNorm (x : Dy) : Dy :=
  if x.m = 0 then ⟨0, 0⟩ else dyNormAux x.m.natAbs x.m x.e

/-- Exact sum of dyadic rationals. -/
def dyAdd (x y : Dy) : Dy :=
  if x.e ≤ y.e then ⟨x.m + y.m * 2 ^ (y.e - x.e).toNat, x.e⟩
  else ⟨x.m * 2 ^ (x.e - y.e).toNat + y.m, y.e⟩

/-- Exact product of dyadic rationals. -/
def dyMul (x y : Dy) : Dy := ⟨x.m * y.m, x.e + y.e⟩

/-- IEEE round-to-nearest-even of a dyadic rational to a `p`-bit significand
(unbounded exponent), returned in canonical form. -/
def dyRound (p : Nat) (x : Dy) : Dy :=
  if x.m = 0 then ⟨0, 0⟩
  else
    let n := x.m.natAbs
    let L := bitlen128 n
    if L ≤ p then dyNorm x
    else
      let sh := L - p
      let D := (2 : Nat) ^ sh
      let q := n / D
      let r := n % D
      let q1 := q + (if D / 2 < r ∨ (r = D / 2 ∧ q % 2 = 1) then 1 else 0)
      dyNorm ⟨if x.m < 0 then -(q1 : Int) else (q1 : Int), x.e + sh⟩

/-- Rounding to a double-precision significand. -/
def roundDouble (x : Dy) : Dy := dyRound 53 x

/-- Rounding to a single-precision significand. -/
def roundSingle (x : Dy) : Dy := dyRound 24 x

/-- Value computed by the JIT's `fmaddGeneric<true, false>` (`fmadds`):
`mulsd` rounds the product to double, `addsd` rounds the sum to double, and
`truncateToSingle` (cvtsd2ss/cvtss2sd) rounds to single. -/
def fmaddsJitValue (a b c : Dy) : Dy :=
  roundSingle (roundDouble (dyAdd (roundDouble (dyMul a c)) b))

/-- Value computed by the interpreter's `fmaSingle` numeric path:
`std::fma(a, c, b)` rounds the exact `a*c + b` once to double, then
`static_cast<float>` rounds to single. -/
def fmaddsInterpValue (a b c : Dy) : Dy :=
  roundSingle (roundDouble (dyAdd (dyMul a c) b))

/-! ## Frame lemmas -/

@[simp] theorem setFpr_fpscr (s : ThreadState) (r : Nat) (v : FPR) :
    (setFpr s r v).fpscr = s.fpscr := rfl

@[simp] theorem setFpr_henv (s : ThreadState) (r : Nat) (v : FPR) :
    (setFpr s r v).henv = s.henv := rfl

@[simp] theorem setFpr_fpr_self (s : ThreadState) (r : Nat) (v : FPR) :
    (setFpr s r v).fpr r = v := by simp [setFpr]

@[simp] theorem hostUnion_inexact (a b : HostFlags) :
    (HostFlags.union a b).inexact = (a.inexact || b.inexact) := rfl

@[simp] theorem hostUnion_overflow (a b : HostFlags) :
    (HostFlags.union a b).overflow = (a.overflow || b.overflow) := rfl

@[simp] theorem raiseHost_henv (s : ThreadState) (f : HostFlags) :
    (raiseHost s f).henv = s.henv.union f := rfl

@[simp] theorem raiseHost_fpr (s : ThreadState) (f : HostFlags) :
    (raiseHost s f).fpr = s.fpr := rfl

@[simp] theorem raiseHost_fpscr (s : ThreadState) (f : HostFlags) :
    (raiseHost s f).fpscr = s.fpscr := rfl

@[simp] theorem raiseArithFpscr_fpr (s : ThreadState) (f : ArithFlags) :
    (raiseArithFpscr s f).fpr = s.fpr := rfl

@[simp] theorem raiseArithFpscr_henv (s : ThreadState) (f : ArithFlags) :
    (raiseArithFpscr s f).henv = s.henv := rfl

@[simp] theorem raiseArithFpscr_ve (s : ThreadState) (f : ArithFlags) :
    (raiseArithFpscr s f).fpscr.ve = s.fpscr.ve := rfl

@[simp] theorem raiseArithFpscr_ze (s : ThreadState) (f : ArithFlags) :
    (raiseArithFpscr s f).fpscr.ze = s.fpscr.ze := rfl

@[simp] theorem updateFPRF_fpr (s : ThreadState) (x : Nat) :
    (updateFPRF s x).fpr = s.fpr := rfl

@[simp] theorem updateFPRF_henv (s : ThreadState) (x : Nat) :
    (updateFPRF s x).henv = s.henv := rfl

@[simp] theorem updateFPRF_fprf (s : ThreadState) (x : Nat) :
    (updateFPRF s x).fpscr.fprf = fprfClassify x := rfl

@[simp] theorem updateFPSCR_fprf (s : ThreadState) (old : FPSCR) :
    (updateFPSCR s old).fpscr.fprf = s.fpscr.fprf := rfl

@[simp] theorem updateFPSCR_fpr (s : ThreadState) (old : FPSCR) :
    (updateFPSCR s old).fpr = s.fpr := rfl

@[simp] theorem updateFPSCR_henv (s : ThreadState) (old : FPSCR) :
    (updateFPSCR s old).henv = s.henv := rfl

@[simp] theorem updateFCR_fpr (s : ThreadState) :
    (updateFloatConditionRegister s).fpr = s.fpr := rfl

@[simp] theorem updateFCR_fpscr (s : ThreadState) :
    (updateFloatConditionRegister s).fpscr = s.fpscr := rfl

@[simp] theorem updateFCR_henv (s : ThreadState) :
    (updateFloatConditionRegister s).henv = s.henv := rfl

@[simp] theorem raiseArithFpscr_vxsnan (s : ThreadState) (f : ArithFlags) :
    (raiseArithFpscr s f).fpscr.vxsnan = (s.fpscr.vxsnan || f.vxsnan) := rfl

@[simp] theorem raiseArithFpscr_vxisi (s : ThreadState) (f : ArithFlags) :
    (raiseArithFpscr s f).fpscr.vxisi = (s.fpscr.vxisi || f.vxisi) := rfl

@[simp] theorem raiseArithFpscr_vximz (s : ThreadState) (f : ArithFlags) :
    (raiseArithFpscr s f).fpscr.vximz = (s.fpscr.vximz || f.vximz) := rfl

@[simp] theorem raiseArithFpscr_vxidi (s : ThreadState) (f : ArithFlags) :
    (raiseArithFpscr s f).fpscr.vxidi = (s.fpscr.vxidi || f.vxidi) := rfl

@[simp] theorem raiseArithFpscr_vxzdz (s : ThreadState) (f : ArithFlags) :
    (raiseArithFpscr s f).fpscr.vxzdz = (s.fpscr.vxzdz || f.vxzdz) := rfl

@[simp] theorem raiseArithFpscr_vxsqrt (s : ThreadState) (f : ArithFlags) :
    (raiseArithFpscr s f).fpscr.vxsqrt = (s.fpscr.vxsqrt || f.vxsqrt) := rfl

@[simp] theorem raiseArithFpscr_zx (s : ThreadState) (f : ArithFlags) :
    (raiseArithFpscr s f).fpscr.zx = (s.fpscr.zx || f.zx) := rfl

@[simp] theorem updateFPRF_ve (s : ThreadState) (x : Nat) :
    (updateFPRF s x).fpscr.ve = s.fpscr.ve := rfl

@[simp] theorem updateFPRF_ze (s : ThreadState) (x : Nat) :
    (updateFPRF s x).fpscr.ze = s.fpscr.ze := rfl

@[simp] theorem updateFPSCR_ve (s : ThreadState) (old : FPSCR) :
    (updateFPSCR s old).fpscr.ve = s.fpscr.ve := rfl

@[simp] theorem updateFPSCR_ze (s : ThreadState) (old : FPSCR) :
    (updateFPSCR s old).fpscr.ze = s.fpscr.ze := rfl

@[simp] theorem updateFPRF_vxsnan (s : ThreadState) (x : Nat) :
    (updateFPRF s x).fpscr.vxsnan = s.fpscr.vxsnan := rfl

@[simp] theorem updateFPRF_vxisi (s : ThreadState) (x : Nat) :
    (updateFPRF s x).fpscr.vxisi = s.fpscr.vxisi := rfl

@[simp] theorem updateFPRF_vximz (s : ThreadState) (x : Nat) :
    (updateFPRF s x).fpscr.vximz = s.fpscr.vximz := rfl

@[simp] theorem updateFPRF_vxidi (s : ThreadState) (x : Nat) :
    (updateFPRF s x).fpscr.vxidi = s.fpscr.vxidi := rfl

@[simp] theorem updateFPRF_vxzdz (s : ThreadState) (x : Nat) :
    (updateFPRF s x).fpscr.vxzdz = s.fpscr.vxzdz := rfl

@[simp] theorem updateFPRF_vxsqrt (s : ThreadState) (x : Nat) :
    (updateFPRF s x).fpscr.vxsqrt = s.fpscr.vxsqrt := rfl

@[simp] theorem updateFPRF_zx (s : ThreadState) (x : Nat) :
    (updateFPRF s x).fpscr.zx = s.fpscr.zx := rfl

@[simp] theorem updateFPSCR_vxsnan (s : ThreadState) (old : FPSCR) :
    (updateFPSCR s old).fpscr.vxsnan = s.fpscr.vxsnan := rfl

@[simp] theorem updateFPSCR_vxisi (s : ThreadState) (old : FPSCR) :
    (updateFPSCR s old).fpscr.vxisi = s.fpscr.vxisi := rfl

@[simp] theorem updateFPSCR_vximz (s : ThreadState) (old : FPSCR) :
    (updateFPSCR s old).fpscr.vximz = s.fpscr.vximz := rfl

@[simp] theorem updateFPSCR_vxidi (s : ThreadState) (old : FPSCR) :
    (updateFPSCR s old).fpscr.vxidi = s.fpscr.vxidi := rfl

@[simp] theorem updateFPSCR_vxzdz (s : ThreadState) (old : FPSCR) :
    (updateFPSCR s old).fpscr.vxzdz = s.fpscr.vxzdz := rfl

@[simp] theorem updateFPSCR_vxsqrt (s : ThreadState) (old : FPSCR) :
    (updateFPSCR s old).fpscr.vxsqrt = s.fpscr.vxsqrt := rfl

@[simp] theorem updateFPSCR_zx (s : ThreadState) (old : FPSCR) :
    (updateFPSCR s old).fpscr.zx = (s.fpscr.zx || s.henv.divbyzero) := rfl

@[simp] theorem flagsUnion_vxsnan (f g : ArithFlags) :
    (f.union g).vxsnan = (f.vxsnan || g.vxsnan) := rfl

@[simp] theorem flagsUnion_vxisi (f g : ArithFlags) :
    (f.union g).vxisi = (f.vxisi || g.vxisi) := rfl

@[simp] theorem flagsUnion_vximz (f g : ArithFlags) :
    (f.union g).vximz = (f.vximz || g.vximz) := rfl

@[simp] theorem flagsUnion_vxidi (f g : ArithFlags) :
    (f.union g).vxidi = (f.vxidi || g.vxidi) := rfl

@[simp] theorem flagsUnion_vxzdz (f g : ArithFlags) :
    (f.union g).vxzdz = (f.vxzdz || g.vxzdz) := rfl

@[simp] theorem flagsUnion_vxsqrt (f g : ArithFlags) :
    (f.union g).vxsqrt = (f.vxsqrt || g.vxsqrt) := rfl

@[simp] theorem flagsUnion_zx (f g : ArithFlags) :
    (f.union g).zx = (f.zx || g.zx) := rfl

@[simp] theorem fmaFlags_zx (a b c ad : Nat) : (fmaFlags a b c ad).zx = false := rfl

@[simp] theorem fmaFlags_vxidi (a b c ad : Nat) :
    (fmaFlags a b c ad).vxidi = false := rfl

@[simp] theorem fmaFlags_vxzdz (a b c ad : Nat) :
    (fmaFlags a b c ad).vxzdz = false := rfl

@[simp] theorem fmaFlags_vxsqrt (a b c ad : Nat) :
    (fmaFlags a b c ad).vxsqrt = false := rfl

@[simp] theorem emptyFlags_gateOf (f : FPSCR) : gateOf emptyFlags f = false := rfl

theorem gateOf_fpscr_congr (fl : ArithFlags) (f g : FPSCR)
    (hve : f.ve = g.ve) (hze : f.ze = g.ze) : gateOf fl f = gateOf fl g := by
  simp [gateOf, hve, hze]

/-! ## Bit-field extraction lemmas -/

theorem sign64_mk (sg e m : Nat) (hs : sg ≤ 1) (he : e < 2 ^ 11)
    (hm : m < 2 ^ 52) : sign64 (mk64 sg e m) = sg := by
  unfold sign64 mk64; omega

theorem exp64_mk (sg e m : Nat) (hs : sg ≤ 1) (he : e < 2 ^ 11)
    (hm : m < 2 ^ 52) : exp64 (mk64 sg e m) = e := by
  unfold exp64 mk64; omega

theorem mant64_mk (sg e m : Nat) (hs : sg ≤ 1) (he : e < 2 ^ 11)
    (hm : m < 2 ^ 52) : mant64 (mk64 sg e m) = m := by
  unfold mant64 mk64; omega

theorem sign32_mk (sg e m : Nat) (hs : sg ≤ 1) (he : e < 2 ^ 8)
    (hm : m < 2 ^ 23) : sign32 (mk32 sg e m) = sg := by
  unfold sign32 mk32; omega

theorem exp32_mk (sg e m : Nat) (hs : sg ≤ 1) (he : e < 2 ^ 8)
    (hm : m < 2 ^ 23) : exp32 (mk32 sg e m) = e := by
  unfold exp32 mk32; omega

theorem mant32_mk (sg e m : Nat) (hs : sg ≤ 1) (he : e < 2 ^ 8)
    (hm : m < 2 ^ 23) : mant32 (mk32 sg e m) = m := by
  unfold mant32 mk32; omega

/-- XOR against a number with one extra high bit isolates that bit. -/
theorem xor_two_pow_add {n r : Nat} (h : r < 2 ^ n) : (2 ^ n + r) ^^^ r = 2 ^ n := by
  apply Nat.eq_of_testBit_eq
  intro i
  rcases lt_trichotomy i n with hi | rfl | hi
  · simp [Nat.testBit_two_pow_add_gt hi, Nat.testBit_two_pow_of_ne (Nat.ne_of_gt hi)]
  · simp [Nat.testBit_two_pow_add_eq, Nat.testBit_lt_two_pow h]
  · have h1 : 2 ^ n + r < 2 ^ i := by
      have : 2 ^ (n + 1) ≤ 2 ^ i := Nat.pow_le_pow_right (by norm_num) hi
      omega
    have h2 : r < 2 ^ i := by omega
    simp [Nat.testBit_lt_two_pow h1, Nat.testBit_lt_two_pow h2,
      Nat.testBit_two_pow_of_ne (Nat.ne_of_lt hi)]

/-! ## C3: merge low lane is bit-truncated -/

/-- C3: for every state and every `ps_merge00` / `ps_merge10` instruction
(the merges whose output lane 1 comes from B's lane 0), the destination's
lane-1 bit pattern equals the bit-level truncation
`truncate_double_bits(B.idw)` of B's lane-0 double: the mantissa is
truncated, not rounded. -/
theorem claim3_merge_lane1_truncated (s : ThreadState) (i : Instr) :
    ((ps_merge00 s i).fpr i.frD).ps1 = truncate_double_bits ((s.fpr i.frB).ps0) ∧
    ((ps_merge10 s i).fpr i.frD).ps1 = truncate_double_bits ((s.fpr i.frB).ps0) := by
  constructor
  · simp only [ps_merge00, mergeGeneric, truncate_double]
    cases hrc : i.rc <;>
      by_cases hA : is_signalling_nan ((s.fpr i.frA).ps0) <;> simp [hrc, hA]
  · simp only [ps_merge10, mergeGeneric, truncate_double]
    cases hrc : i.rc <;> simp [hrc]

/-! ## C4: ps_sel -/

/-- C4 (amended): `ps_sel` selects per slot by `A.i >= 0` (false for NaN, so
NaN in A routes to B) and leaves the FPSCR unchanged.  Lane 1 is a pure bit
copy of the chosen source lane; lane 0 is the chosen source lane passed
through the source's double→float→double numeric conversions (the `float`
locals), which is bit-preserving for extended-f32 values but not for NaN
payloads. -/
theorem claim4_sel_amended (s : ThreadState) (i : Instr) :
    (ps_sel s i).fpscr = s.fpscr ∧
    ((ps_sel s i).fpr i.frD).ps1 =
      (if ge0_32 ((s.fpr i.frA).ps1) then (s.fpr i.frC).ps1
       else (s.fpr i.frB).ps1) ∧
    (is_nan32 ((s.fpr i.frA).ps1) = true →
      ((ps_sel s i).fpr i.frD).ps1 = (s.fpr i.frB).ps1) ∧
    ((ps_sel s i).fpr i.frD).ps0 =
      cvtss2sd (if ge0_32 (cvtsd2ss ((s.fpr i.frA).ps0)) then
        cvtsd2ss ((s.fpr i.frC).ps0) else cvtsd2ss ((s.fpr i.frB).ps0)) := by
  refine ⟨?_, ?_, ?_, ?_⟩
  · simp only [ps_sel]
    cases hrc : i.rc <;> simp [hrc]
  · simp only [ps_sel]
    cases hrc : i.rc <;> simp [hrc]
  · intro hnan
    simp only [ps_sel]
    cases hrc : i.rc <;> simp [hrc, ge0_32, hnan]
  · simp only [ps_sel]
    cases hrc : i.rc <;> simp [hrc]

/-- C4 witness: with a NaN in A's lane 1, lane 1 of the destination is B's
lane 1. -/
theorem claim4_sel_amended_witness :
    ((ps_sel (setFpr state0 1 ⟨0, 0x7FC00000⟩) ⟨1, 2, 3, 4, false⟩).fpr 4).ps1 =
      ((setFpr state0 1 ⟨0, 0x7FC00000⟩).fpr 2).ps1 :=
  (claim4_sel_amended (setFpr state0 1 ⟨0, 0x7FC00000⟩)
    ⟨1, 2, 3, 4, false⟩).2.2.1 (by decide)

/-- C4 counterexample: the destination is not a pure bit-copy of the chosen
lanes.  A's lane 0 is a NaN, so lane 0 is chosen from B; B's lane 0 holds a
signalling NaN whose payload the float round-trip quiets and truncates, so
the stored lane-0 pattern differs from B's. -/
theorem claim4_sel_counterexample :
    ((ps_sel (setFpr (setFpr state0 1 ⟨0x7FF8000000000000, 0⟩) 2
        ⟨0x7FF0000000000001, 0⟩) ⟨1, 2, 3, 4, false⟩).fpr 4).ps0 ≠
      ((setFpr (setFpr state0 1 ⟨0x7FF8000000000000, 0⟩) 2
        ⟨0x7FF0000000000001, 0⟩).fpr 2).ps0 := by decide

/-! ## C6: the move family on signalling NaNs -/

/-- C6 (amended): for `ps_mr/neg/abs/nabs` on a lane-0 source that is a
signalling NaN whose payload lies in the upper 23 mantissa bits (low 29
mantissa bits zero, the form `extend_float_nan_bits` produces), the
destination's lane-0 bit pattern equals the source's bit pattern with only
the sign bit transformed per mode — XOR 0 for mr, XOR `2^63` for neg, sign
forced clear for abs and set for nabs — and the NaN mantissa payload is
preserved exactly. -/
theorem claim6_move_snan_sign_only (s : ThreadState) (i : Instr) (sg m : Nat)
    (hs : sg ≤ 1) (hm0 : 0 < m) (hm : m < 2 ^ 22)
    (hx : (s.fpr i.frB).ps0 = mk64 sg 2047 (m * 2 ^ 29)) :
    ((ps_mr s i).fpr i.frD).ps0 = (s.fpr i.frB).ps0 ∧
    ((ps_mr s i).fpr i.frD).ps0 ^^^ (s.fpr i.frB).ps0 = 0 ∧
    ((ps_neg s i).fpr i.frD).ps0 = mk64 (1 - sg) 2047 (m * 2 ^ 29) ∧
    ((ps_neg s i).fpr i.frD).ps0 ^^^ (s.fpr i.frB).ps0 = 2 ^ 63 ∧
    ((ps_abs s i).fpr i.frD).ps0 = mk64 0 2047 (m * 2 ^ 29) ∧
    ((ps_nabs s i).fpr i.frD).ps0 = mk64 1 2047 (m * 2 ^ 29) := by
  have hm52 : m * 2 ^ 29 < 2 ^ 52 := by omega
  have hsnan : is_signalling_nan ((s.fpr i.frB).ps0) = true := by
    rw [hx]
    unfold is_signalling_nan is_nan
    rw [exp64_mk sg 2047 _ hs (by norm_num) hm52,
        mant64_mk sg 2047 _ hs (by norm_num) hm52]
    simp only [beq_iff_eq, bne_iff_ne, Bool.and_eq_true, decide_eq_true_eq]
    refine ⟨⟨trivial, by omega⟩, by omega⟩
  have hrun : ∀ mode, ((moveGeneric mode s i).fpr i.frD).ps0 =
      extend_float_nan_bits
        (moveOp32 mode (truncate_double_bits ((s.fpr i.frB).ps0))) := by
    intro mode
    simp only [moveGeneric, hsnan]
    cases hrc : i.rc <;> simp [hrc]
  have htdb : truncate_double_bits (mk64 sg 2047 (m * 2 ^ 29)) = mk32 sg 255 m := by
    unfold truncate_double_bits
    rw [sign64_mk sg 2047 _ hs (by norm_num) hm52,
        exp64_mk sg 2047 _ hs (by norm_num) hm52,
        mant64_mk sg 2047 _ hs (by norm_num) hm52, if_pos rfl]
    unfold mk32
    omega
  have hefnb : ∀ sg', sg' ≤ 1 →
      extend_float_nan_bits (mk32 sg' 255 m) = mk64 sg' 2047 (m * 2 ^ 29) := by
    intro sg' hsg'
    unfold extend_float_nan_bits
    rw [sign32_mk sg' 255 m hsg' (by norm_num) (by omega),
        exp32_mk sg' 255 m hsg' (by norm_num) (by omega),
        mant32_mk sg' 255 m hsg' (by norm_num) (by omega), if_pos rfl]
  have hmr : ((ps_mr s i).fpr i.frD).ps0 = mk64 sg 2047 (m * 2 ^ 29) := by
    rw [ps_mr, hrun, hx, htdb]
    show extend_float_nan_bits (mk32 sg 255 m) = _
    exact hefnb sg hs
  have hsign32 : sign32 (mk32 sg 255 m) = sg :=
    sign32_mk sg 255 m hs (by norm_num) (by omega)
  have hneg : ((ps_neg s i).fpr i.frD).ps0 = mk64 (1 - sg) 2047 (m * 2 ^ 29) := by
    rw [ps_neg, hrun, hx, htdb]
    have : moveOp32 .negate (mk32 sg 255 m) = mk32 (1 - sg) 255 m := by
      simp only [moveOp32]
      rw [hsign32]
      unfold mk32
      omega
    rw [this, hefnb (1 - sg) (by omega)]
  have habs : ((ps_abs s i).fpr i.frD).ps0 = mk64 0 2047 (m * 2 ^ 29) := by
    rw [ps_abs, hrun, hx, htdb]
    have : moveOp32 .absolute (mk32 sg 255 m) = mk32 0 255 m := by
      simp only [moveOp32]
      unfold mk32
      omega
    rw [this, hefnb 0 (by omega)]
  have hnabs : ((ps_nabs s i).fpr i.frD).ps0 = mk64 1 2047 (m * 2 ^ 29) := by
    rw [ps_nabs, hrun, hx, htdb]
    have : moveOp32 .negAbsolute (mk32 sg 255 m) = mk32 1 255 m := by
      simp only [moveOp32]
      unfold mk32
      omega
    rw [this, hefnb 1 (by omega)]
  refine ⟨by rw [hmr, hx], by rw [hmr, hx]; exact Nat.xor_self _, hneg, ?_, habs, hnabs⟩
  rw [hneg, hx]
  have hlt : 2047 * 2 ^ 52 + m * 2 ^ 29 < 2 ^ 63 := by omega
  interval_cases sg
  · have h1 : mk64 1 2047 (m * 2 ^ 29) =
        2 ^ 63 + (2047 * 2 ^ 52 + m * 2 ^ 29) := by unfold mk64; omega
    have h0 : mk64 0 2047 (m * 2 ^ 29) = 2047 * 2 ^ 52 + m * 2 ^ 29 := by
      unfold mk64; omega
    rw [show (1 : Nat) - 0 = 1 from rfl, h1, h0]
    exact xor_two_pow_add hlt
  · have h1 : mk64 1 2047 (m * 2 ^ 29) =
        2 ^ 63 + (2047 * 2 ^ 52 + m * 2 ^ 29) := by unfold mk64; omega
    have h0 : mk64 0 2047 (m * 2 ^ 29) = 2047 * 2 ^ 52 + m * 2 ^ 29 := by
      unfold mk64; omega
    rw [show (1 : Nat) - 1 = 0 from rfl, h0, h1, Nat.xor_comm]
    exact xor_two_pow_add hlt

/-- C6 witness: a concrete sNaN with a 23-bit payload moves through `ps_mr`
bit-identically. -/
theorem claim6_move_witness :
    ((ps_mr (setFpr state0 2 ⟨0x7FF0000020000000, 0⟩) ⟨1, 2, 3, 4, false⟩).fpr 4).ps0 =
      ((setFpr state0 2 ⟨0x7FF0000020000000, 0⟩).fpr 2).ps0 :=
  (claim6_move_snan_sign_only (setFpr state0 2 ⟨0x7FF0000020000000, 0⟩)
    ⟨1, 2, 3, 4, false⟩ 0 1 (by decide) (by decide) (by decide) (by decide)).1

/-! ## C8, C9, C10: NaN propagation, FPRF of the sum, FMA negation -/

/-- Quieting the truncation of any NaN double yields a quiet NaN float: the
truncation keeps the NaN exponent, and `make_quiet` forces the quiet bit. -/
theorem quiet_of_nan (x : Nat) (hx : is_nan x = true) :
    is_quiet_nan32 (make_quiet (truncate_double x)) = true := by
  unfold is_nan at hx
  simp only [Bool.and_eq_true, beq_iff_eq, bne_iff_ne] at hx
  obtain ⟨he, hmne⟩ := hx
  unfold is_quiet_nan32 is_nan32 make_quiet truncate_double truncate_double_bits
  rw [he, if_pos rfl]
  unfold mk32 exp32 mant32 sign64 mant64 at *
  simp only [Bool.and_eq_true, beq_iff_eq, bne_iff_ne, decide_eq_true_eq]
  refine ⟨⟨?_, ?_⟩, ?_⟩ <;> omega

/-- C8: for every arithmetic slot (`ps_add/sub/mul/div/muls*` via
`psArithSingle`) that produces a result with at least one NaN operand, the
slot result is the quieted, narrowed A operand if A is NaN, else the
quieted, narrowed B operand; for the FMA family (`fmaSingle`) the priority
is A over B over C; in every such case the produced result is a quiet NaN
(its quiet bit is set). -/
theorem claim8_nan_priority (h : Host) (s : ThreadState) (i : Instr) :
    (∀ op sA sB d, (psArithSingle h op sA sB s i).2 = some d →
      (is_nan (arithSlotA s i sA) || is_nan (arithSlotB op s i sB)) = true →
      d = (if is_nan (arithSlotA s i sA) then
             make_quiet (truncate_double (arithSlotA s i sA))
           else make_quiet (truncate_double (arithSlotB op s i sB))) ∧
        is_quiet_nan32 d = true) ∧
    (∀ sub neg sAB sC d, (fmaSingle h sub neg sAB sC s i).2 = some d →
      (is_nan (fmaSlotA s i sAB) || is_nan (fmaSlotB s i sAB) ||
        is_nan (fmaSlotC s i sC)) = true →
      d = (if is_nan (fmaSlotA s i sAB) then
             make_quiet (truncate_double (fmaSlotA s i sAB))
           else if is_nan (fmaSlotB s i sAB) then
             make_quiet (truncate_double (fmaSlotB s i sAB))
           else make_quiet (truncate_double (fmaSlotC s i sC))) ∧
        is_quiet_nan32 d = true) := by
  constructor
  · intro op sA sB d hr hnan
    simp only [psArithSingle] at hr
    split at hr
    · exact absurd hr (by simp)
    · split at hr
      next ha =>
        have hd := Option.some.inj hr
        subst hd
        rw [if_pos ha]
        exact ⟨rfl, quiet_of_nan _ ha⟩
      next ha =>
        split at hr
        next hb =>
          have hd := Option.some.inj hr
          subst hd
          rw [if_neg ha]
          exact ⟨rfl, quiet_of_nan _ hb⟩
        next hb =>
          rw [Bool.or_eq_true] at hnan
          rcases hnan with hn | hn
          · exact absurd hn ha
          · exact absurd hn hb
  · intro sub neg sAB sC d hr hnan
    simp only [fmaSingle] at hr
    split at hr
    · exact absurd hr (by simp)
    · split at hr
      next ha =>
        have hd := Option.some.inj hr
        subst hd
        rw [if_pos ha]
        exact ⟨rfl, quiet_of_nan _ ha⟩
      next ha =>
        split at hr
        next hb =>
          have hd := Option.some.inj hr
          subst hd
          rw [if_neg ha, if_pos hb]
          exact ⟨rfl, quiet_of_nan _ hb⟩
        next hb =>
          split at hr
          next hc =>
            have hd := Option.some.inj hr
            subst hd
            rw [if_neg ha, if_neg hb]
            exact ⟨rfl, quiet_of_nan _ hc⟩
          next hc =>
            simp only [Bool.or_eq_true] at hnan
            rcases hnan with (hn | hn) | hn
            · exact absurd hn ha
            · exact absurd hn hb
            · exact absurd hn hc

/-- C8 witness: a quiet NaN in A's lane 0 propagates (quieted, narrowed)
through the slot-0 add of `ps_add`. -/
theorem claim8_nan_priority_witness :
    (0x7FC00000 : Nat) =
      (if is_nan (arithSlotA (setFpr state0 1 ⟨0x7FF8000000000000, 0⟩)
          ⟨1, 2, 3, 4, false⟩ 0) then
        make_quiet (truncate_double (arithSlotA
          (setFpr state0 1 ⟨0x7FF8000000000000, 0⟩) ⟨1, 2, 3, 4, false⟩ 0))
      else make_quiet (truncate_double (arithSlotB PSAdd
          (setFpr state0 1 ⟨0x7FF8000000000000, 0⟩) ⟨1, 2, 3, 4, false⟩ 0))) ∧
      is_quiet_nan32 0x7FC00000 = true :=
  (claim8_nan_priority pointHost (setFpr state0 1 ⟨0x7FF8000000000000, 0⟩)
    ⟨1, 2, 3, 4, false⟩).1 PSAdd 0 0 0x7FC00000 (by decide) (by decide)

/-- C9: whenever the sum slot of `ps_sum0`/`ps_sum1` is not write-gated (the
cross-slot add returns a result `d`), FPSCR.FPRF is computed from the sum
value `d` extended to f64; in particular for `ps_sum1` the value written to
lane 1 is that same sum `d`, so FPRF reflects the sum, not the lane-0 value
copied from C. -/
theorem claim9_sum_fprf (h : Host) (s : ThreadState) (i : Instr) (slot : Nat)
    (d : Nat) (hr : (psArithSingle h PSAdd 0 1 s i).2 = some d) :
    (psSumGeneric h slot s i).fpscr.fprf = fprfClassify (extend_float d) ∧
    ((psSumGeneric h 1 s i).fpr i.frD).ps1 = d := by
  constructor
  · simp only [psSumGeneric, hr]
    cases hrc : i.rc <;> by_cases hsl : slot = 0 <;>
      by_cases hn : is_nan (((psArithSingle h PSAdd 0 1 s i).1.fpr i.frC).ps0) <;>
      simp [hrc, hsl, hn]
  · simp only [psSumGeneric, hr]
    cases hrc : i.rc <;>
      by_cases hn : is_nan (((psArithSingle h PSAdd 0 1 s i).1.fpr i.frC).ps0) <;>
      simp [hrc, hn]

/-- C9 witness: summing 1.5 (lane 0 of A) and 2.5f (lane 1 of B) with the
point host sets FPRF to the positive-normal class and writes the sum to
`ps_sum1`'s lane 1. -/
theorem claim9_sum_fprf_witness :
    (psSumGeneric pointHost 0 state0 ⟨1, 2, 3, 4, false⟩).fpscr.fprf =
      fprfClassify (extend_float 0) ∧
    ((psSumGeneric pointHost 1 state0 ⟨1, 2, 3, 4, false⟩).fpr 4).ps1 = 0 :=
  claim9_sum_fprf pointHost state0 ⟨1, 2, 3, 4, false⟩ 0 0 (by decide)

/-- C10: for `ps_nmadd`/`ps_nmsub` (the `fmaSingle` slots with FMANegate
set), the final sign negation applies only to the numeric fused-multiply-add
path: if any operand is NaN, or an invalid-operation condition selects the
quiet NaN constant, the slot result is that (quieted) NaN with no sign flip,
identical to the corresponding non-negated instruction's slot result. -/
theorem claim10_nmadd_nmsub_no_sign_flip (h : Host) (s : ThreadState)
    (i : Instr) (sub : Bool) (sAB sC : Nat) (d : Nat)
    (hr : (fmaSingle h sub true sAB sC s i).2 = some d)
    (hcase : (is_nan (fmaSlotA s i sAB) || is_nan (fmaSlotB s i sAB) ||
      is_nan (fmaSlotC s i sC) ||
      (fmaSlotFlags sub sAB sC s i).vxisi ||
      (fmaSlotFlags sub sAB sC s i).vximz) = true) :
    d = (if is_nan (fmaSlotA s i sAB) then
           make_quiet (truncate_double (fmaSlotA s i sAB))
         else if is_nan (fmaSlotB s i sAB) then
           make_quiet (truncate_double (fmaSlotB s i sAB))
         else if is_nan (fmaSlotC s i sC) then
           make_quiet (truncate_double (fmaSlotC s i sC))
         else make_nan32) ∧
    (fmaSingle h sub true sAB sC s i).2 = (fmaSingle h sub false sAB sC s i).2 := by
  simp only [fmaSlotFlags] at hcase
  simp only [fmaSingle] at hr ⊢
  split at hr
  next hgate => exact absurd hr (by simp)
  next hgate =>
    rw [if_neg hgate, if_neg hgate]
    split at hr
    next ha =>
      have hd := Option.some.inj hr
      subst hd
      simp only [if_pos ha]
      exact ⟨trivial, trivial⟩
    next ha =>
      split at hr
      next hb =>
        have hd := Option.some.inj hr
        subst hd
        simp only [if_neg ha, if_pos hb]
        exact ⟨trivial, trivial⟩
      next hb =>
        split at hr
        next hc =>
          have hd := Option.some.inj hr
          subst hd
          simp only [if_neg ha, if_neg hb, if_pos hc]
          exact ⟨trivial, trivial⟩
        next hc =>
          split at hr
          next hinv =>
            have hd := Option.some.inj hr
            subst hd
            simp only [if_neg ha, if_neg hb, if_neg hc, if_pos hinv]
            exact ⟨trivial, trivial⟩
          next hinv =>
            simp only [Bool.or_eq_true] at hcase
            rcases hcase with ((((hn | hn) | hn) | hn) | hn)
            · exact absurd hn ha
            · exact absurd hn hb
            · exact absurd hn hc
            · exact absurd (Bool.or_eq_true _ _ |>.mpr (Or.inl hn)) hinv
            · exact absurd (Bool.or_eq_true _ _ |>.mpr (Or.inr hn)) hinv

/-- C10 witness: `ps_nmsub`-style slot with a quiet NaN in A returns the
quieted NaN unnegated, matching the non-negated variant. -/
theorem claim10_no_sign_flip_witness :
    (0x7FC00000 : Nat) =
      (if is_nan (fmaSlotA (setFpr state0 1 ⟨0x7FF8000000000000, 0⟩)
          ⟨1, 2, 3, 4, false⟩ 0) then
        make_quiet (truncate_double (fmaSlotA
          (setFpr state0 1 ⟨0x7FF8000000000000, 0⟩) ⟨1, 2, 3, 4, false⟩ 0))
      else if is_nan (fmaSlotB (setFpr state0 1 ⟨0x7FF8000000000000, 0⟩)
          ⟨1, 2, 3, 4, false⟩ 0) then
        make_quiet (truncate_double (fmaSlotB
          (setFpr state0 1 ⟨0x7FF8000000000000, 0⟩) ⟨1, 2, 3, 4, false⟩ 0))
      else if is_nan (fmaSlotC (setFpr state0 1 ⟨0x7FF8000000000000, 0⟩)
          ⟨1, 2, 3, 4, false⟩ 0) then
        make_quiet (truncate_double (fmaSlotC
          (setFpr state0 1 ⟨0x7FF8000000000000, 0⟩) ⟨1, 2, 3, 4, false⟩ 0))
      else make_nan32) ∧
    (fmaSingle pointHost true true 0 0
        (setFpr state0 1 ⟨0x7FF8000000000000, 0⟩) ⟨1, 2, 3, 4, false⟩).2 =
      (fmaSingle pointHost true false 0 0
        (setFpr state0 1 ⟨0x7FF8000000000000, 0⟩) ⟨1, 2, 3, 4, false⟩).2 :=
  claim10_nmadd_nmsub_no_sign_flip pointHost
    (setFpr state0 1 ⟨0x7FF8000000000000, 0⟩) ⟨1, 2, 3, 4, false⟩
    true 0 0 0x7FC00000 (by decide) (by decide)

/-! ## C5: ps_sum1 preserves host FE_INEXACT / FE_OVERFLOW across the side
conversion -/

/-- C5: for `ps_sum1`, when C's lane 0 is not NaN and the sum slot produced a
result, the narrowing of `C.paired0` for the un-summed output slot leaves
the host FE_INEXACT and FE_OVERFLOW flags exactly as they were before that
conversion (the state the sum slot left them in); consequently, across the
whole instruction, host FE_INEXACT changes only if the sum itself raised
it. -/
theorem claim5_sum1_fenv (h : Host) (s : ThreadState) (i : Instr) (d : Nat)
    (hr : (psArithSingle h PSAdd 0 1 s i).2 = some d)
    (hnanC : is_nan (((psArithSingle h PSAdd 0 1 s i).1.fpr i.frC).ps0) = false) :
    (psSumGeneric h 1 s i).henv.inexact =
      (psArithSingle h PSAdd 0 1 s i).1.henv.inexact ∧
    (psSumGeneric h 1 s i).henv.overflow =
      (psArithSingle h PSAdd 0 1 s i).1.henv.overflow := by
  constructor
  · simp only [psSumGeneric, hr]
    cases hrc : i.rc <;>
      cases hx : (psArithSingle h PSAdd 0 1 s i).1.henv.inexact <;>
        simp [hrc, hnanC, hx]
  · simp only [psSumGeneric, hr]
    cases hrc : i.rc <;>
      cases hx : (psArithSingle h PSAdd 0 1 s i).1.henv.overflow <;>
        simp [hrc, hnanC, hx]

/-- C5 witness: on the zero state the sum is exact and both flags are
preserved across the side conversion. -/
theorem claim5_sum1_fenv_witness :
    (psSumGeneric pointHost 1 state0 ⟨1, 2, 3, 4, false⟩).henv.inexact =
      (psArithSingle pointHost PSAdd 0 1 state0 ⟨1, 2, 3, 4, false⟩).1.henv.inexact :=
  (claim5_sum1_fenv pointHost state0 ⟨1, 2, 3, 4, false⟩ 0
    (by decide) (by decide)).1

/-! ## C7: ps_div flags and the divide-by-zero scenario -/

/-- The numeric path of `psArithSingle`: when no gate triggers, neither
operand is NaN and no invalid condition holds, the slot runs the host
operation and narrows its result. -/
theorem psArithSingle_numeric (h : Host) (op : PSArithOperator)
    (sA sB : Nat) (s : ThreadState) (i : Instr)
    (hgate : (((arithFlags op (arithSlotA s i sA) (arithSlotB op s i sB)).vxAny &&
        s.fpscr.ve) ||
      ((arithFlags op (arithSlotA s i sA) (arithSlotB op s i sB)).zx &&
        s.fpscr.ze)) = false)
    (hna : is_nan (arithSlotA s i sA) = false)
    (hnb : is_nan (arithSlotB op s i sB) = false)
    (hinv : ((arithFlags op (arithSlotA s i sA) (arithSlotB op s i sB)).vxisi ||
      (arithFlags op (arithSlotA s i sA) (arithSlotB op s i sB)).vximz ||
      (arithFlags op (arithSlotA s i sA) (arithSlotB op s i sB)).vxidi ||
      (arithFlags op (arithSlotA s i sA) (arithSlotB op s i sB)).vxzdz) = false) :
    psArithSingle h op sA sB s i =
      (raiseHost
        (raiseArithFpscr s (arithFlags op (arithSlotA s i sA) (arithSlotB op s i sB)))
        ((hostArithOp h op (arithSlotA s i sA) (arithSlotB op s i sB)).2.union
          (cvtsd2ssFlags
            (hostArithOp h op (arithSlotA s i sA) (arithSlotB op s i sB)).1)),
       some (cvtsd2ss
         (hostArithOp h op (arithSlotA s i sA) (arithSlotB op s i sB)).1)) := by
  simp only [psArithSingle, raiseArithFpscr_ve, raiseArithFpscr_ze]
  rw [hgate, hna, hnb, hinv]
  simp

/-- C7: for `ps_div`, per slot with operands `a` (from A) and `b` (from B):
vxidi is raised iff both are infinities, vxzdz iff both are zero, and zx iff
`b` is zero and neither vxzdz nor vxsnan holds.  Concretely, for a host
whose division satisfies the two IEEE point facts `1.0 / +0.0 = +inf`
(raising the host divide-by-zero flag) and `1.0 / 2.0 = 0.5`: with
A = {1.0, 1.0f}, B = {+0.0, 2.0f} and ZE = 0, the result register is
lane 0 = +inf, lane 1 = 0.5f, and FPSCR.zx is set. -/
theorem claim7_div_zero_divide (h : Host)
    (h1 : h.fdiv 0x3FF0000000000000 0 =
      (0x7FF0000000000000, { divbyzero := true }))
    (h2 : h.fdiv 0x3FF0000000000000 0x4000000000000000 =
      (0x3FE0000000000000, ({} : HostFlags))) :
    (∀ a b, (arithFlags PSDiv a b).vxidi = (is_infinity a && is_infinity b) ∧
      (arithFlags PSDiv a b).vxzdz = (is_zero a && is_zero b) ∧
      (arithFlags PSDiv a b).zx =
        (!((is_zero a && is_zero b) ||
            (is_signalling_nan a || is_signalling_nan b)) && is_zero b)) ∧
    (ps_div h (setFpr (setFpr state0 1 ⟨0x3FF0000000000000, 0x3F800000⟩) 2
        ⟨0, 0x40000000⟩) ⟨1, 2, 3, 4, false⟩).fpr 4 =
      ⟨0x7FF0000000000000, 0x3F000000⟩ ∧
    (ps_div h (setFpr (setFpr state0 1 ⟨0x3FF0000000000000, 0x3F800000⟩) 2
        ⟨0, 0x40000000⟩) ⟨1, 2, 3, 4, false⟩).fpscr.zx = true := by
  refine ⟨fun a b => ⟨rfl, rfl, rfl⟩, ?_⟩
  have e0 := psArithSingle_numeric h PSDiv 0 0
    (setFpr (setFpr state0 1 ⟨0x3FF0000000000000, 0x3F800000⟩) 2 ⟨0, 0x40000000⟩)
    ⟨1, 2, 3, 4, false⟩ (by decide) (by decide) (by decide) (by decide)
  rw [show arithSlotA (setFpr (setFpr state0 1 ⟨0x3FF0000000000000, 0x3F800000⟩) 2
        ⟨0, 0x40000000⟩) ⟨1, 2, 3, 4, false⟩ 0 = 0x3FF0000000000000 from by decide,
      show arithSlotB PSDiv (setFpr (setFpr state0 1 ⟨0x3FF0000000000000, 0x3F800000⟩) 2
        ⟨0, 0x40000000⟩) ⟨1, 2, 3, 4, false⟩ 0 = 0 from by decide] at e0
  simp only [hostArithOp, h1] at e0
  have e1 := psArithSingle_numeric h PSDiv 1 1
    (psArithSingle h PSDiv 0 0
      (setFpr (setFpr state0 1 ⟨0x3FF0000000000000, 0x3F800000⟩) 2 ⟨0, 0x40000000⟩)
      ⟨1, 2, 3, 4, false⟩).1 ⟨1, 2, 3, 4, false⟩
  rw [e0] at e1
  replace e1 := e1 (by decide) (by decide) (by decide) (by decide)
  rw [show arithSlotA (raiseHost
        (raiseArithFpscr (setFpr (setFpr state0 1 ⟨0x3FF0000000000000, 0x3F800000⟩) 2
          ⟨0, 0x40000000⟩) (arithFlags PSDiv 0x3FF0000000000000 0))
        (HostFlags.union { divbyzero := true } (cvtsd2ssFlags 0x7FF0000000000000)))
        ⟨1, 2, 3, 4, false⟩ 1 = 0x3FF0000000000000 from by decide,
      show arithSlotB PSDiv (raiseHost
        (raiseArithFpscr (setFpr (setFpr state0 1 ⟨0x3FF0000000000000, 0x3F800000⟩) 2
          ⟨0, 0x40000000⟩) (arithFlags PSDiv 0x3FF0000000000000 0))
        (HostFlags.union { divbyzero := true } (cvtsd2ssFlags 0x7FF0000000000000)))
        ⟨1, 2, 3, 4, false⟩ 1 = 0x4000000000000000 from by decide] at e1
  simp only [hostArithOp, h2] at e1
  constructor
  · simp only [ps_div, psArithGeneric, e0, e1]
    decide
  · simp only [ps_div, psArithGeneric, e0, e1]
    decide

/-- C7 witness: `pointHost` satisfies both IEEE point facts, and the
scenario conclusion holds for it. -/
theorem claim7_div_zero_divide_witness :
    (ps_div pointHost (setFpr (setFpr state0 1 ⟨0x3FF0000000000000, 0x3F800000⟩) 2
        ⟨0, 0x40000000⟩) ⟨1, 2, 3, 4, false⟩).fpr 4 =
      ⟨0x7FF0000000000000, 0x3F000000⟩ :=
  (claim7_div_zero_divide pointHost (by decide) (by decide)).2.1

/-! ## C1: slot-level characterisation lemmas -/

theorem psArithSingle_fpr (h : Host) (op : PSArithOperator) (sA sB : Nat)
    (s : ThreadState) (i : Instr) :
    (psArithSingle h op sA sB s i).1.fpr = s.fpr := by
  simp only [psArithSingle]
  repeat' split
  all_goals simp

theorem psArithSingle_fpscr (h : Host) (op : PSArithOperator) (sA sB : Nat)
    (s : ThreadState) (i : Instr) :
    (psArithSingle h op sA sB s i).1.fpscr =
      (raiseArithFpscr s
        (arithFlags op (arithSlotA s i sA) (arithSlotB op s i sB))).fpscr := by
  simp only [psArithSingle]
  repeat' split
  all_goals simp

theorem psArithSingle_none_iff (h : Host) (op : PSArithOperator) (sA sB : Nat)
    (s : ThreadState) (i : Instr) :
    ((psArithSingle h op sA sB s i).2 = none) ↔
      gateOf (arithFlags op (arithSlotA s i sA) (arithSlotB op s i sB))
        s.fpscr = true := by
  simp only [psArithSingle, gateOf]
  repeat' split
  all_goals simp_all

theorem fmaSingle_fpr (h : Host) (sub neg : Bool) (sAB sC : Nat)
    (s : ThreadState) (i : Instr) :
    (fmaSingle h sub neg sAB sC s i).1.fpr = s.fpr := by
  simp only [fmaSingle]
  repeat' split
  all_goals simp

theorem fmaSingle_fpscr (h : Host) (sub neg : Bool) (sAB sC : Nat)
    (s : ThreadState) (i : Instr) :
    (fmaSingle h sub neg sAB sC s i).1.fpscr =
      (raiseArithFpscr s (fmaSlotFlags sub sAB sC s i)).fpscr := by
  simp only [fmaSingle, fmaSlotFlags]
  repeat' split
  all_goals simp

theorem fmaSingle_none_iff (h : Host) (sub neg : Bool) (sAB sC : Nat)
    (s : ThreadState) (i : Instr) :
    ((fmaSingle h sub neg sAB sC s i).2 = none) ↔
      gateOf (fmaSlotFlags sub sAB sC s i) s.fpscr = true := by
  simp only [fmaSingle, fmaSlotFlags, gateOf]
  repeat' split
  all_goals simp_all

theorem arithSlotA_congr (s t : ThreadState) (i : Instr) (sl : Nat)
    (hf : t.fpr = s.fpr) : arithSlotA t i sl = arithSlotA s i sl := by
  simp [arithSlotA, hf]

theorem arithSlotB_congr (op : PSArithOperator) (s t : ThreadState)
    (i : Instr) (sl : Nat) (hf : t.fpr = s.fpr) :
    arithSlotB op t i sl = arithSlotB op s i sl := by
  simp [arithSlotB, hf]

theorem fmaSlotFlags_congr (sub : Bool) (sAB sC : Nat) (s t : ThreadState)
    (i : Instr) (hf : t.fpr = s.fpr) :
    fmaSlotFlags sub sAB sC t i = fmaSlotFlags sub sAB sC s i := by
  simp [fmaSlotFlags, fmaSlotA, fmaSlotB, fmaSlotC, hf]

set_option maxHeartbeats 1000000 in
theorem psArithGeneric_spec (h : Host) (op : PSArithOperator) (b0 b1 : Nat)
    (s : ThreadState) (i : Instr) :
    ((gateOf (arithSlotFlagsPair op b0 b1 s i).1 s.fpscr ||
        gateOf (arithSlotFlagsPair op b0 b1 s i).2 s.fpscr) = false →
      (psArithGeneric h op b0 b1 s i).fpr i.frD = arithWritten h op b0 b1 s i) ∧
    ((gateOf (arithSlotFlagsPair op b0 b1 s i).1 s.fpscr ||
        gateOf (arithSlotFlagsPair op b0 b1 s i).2 s.fpscr) = true →
      (psArithGeneric h op b0 b1 s i).fpr i.frD = s.fpr i.frD) ∧
    stickyEq s (psArithGeneric h op b0 b1 s i)
      ((arithSlotFlagsPair op b0 b1 s i).1.union
        (arithSlotFlagsPair op b0 b1 s i).2) := by
  have hfpr0 := psArithSingle_fpr h op 0 b0 s i
  have hfpscr0 := psArithSingle_fpscr h op 0 b0 s i
  have hfpr1 := psArithSingle_fpr h op 1 b1 (psArithSingle h op 0 b0 s i).1 i
  have hfpscr1 := psArithSingle_fpscr h op 1 b1 (psArithSingle h op 0 b0 s i).1 i
  have hA1 := arithSlotA_congr s (psArithSingle h op 0 b0 s i).1 i 1 hfpr0
  have hB1 := arithSlotB_congr op s (psArithSingle h op 0 b0 s i).1 i b1 hfpr0
  rw [hA1, hB1] at hfpscr1
  have hn0 := psArithSingle_none_iff h op 0 b0 s i
  have hn1 := psArithSingle_none_iff h op 1 b1 (psArithSingle h op 0 b0 s i).1 i
  rw [hA1, hB1,
    gateOf_fpscr_congr _ _ s.fpscr (by rw [hfpscr0]; simp) (by rw [hfpscr0]; simp)]
    at hn1
  simp only [arithSlotFlagsPair]
  rcases hp0 : (psArithSingle h op 0 b0 s i).2 with _ | d0 <;>
    rcases hp1 : (psArithSingle h op 1 b1 (psArithSingle h op 0 b0 s i).1 i).2
      with _ | d1
  · have g0 : gateOf (arithFlags op (arithSlotA s i 0) (arithSlotB op s i b0))
        s.fpscr = true := hn0.mp hp0
    refine ⟨fun hgate => by simp [g0] at hgate, fun _ => ?_, ?_⟩
    · simp only [psArithGeneric, hp0, hp1]
      cases hrc : i.rc <;> simp [hrc, hfpr1, hfpr0]
    · simp only [psArithGeneric, hp0, hp1, stickyEq]
      cases hrc : i.rc <;>
        simp [hrc, hfpscr1, hfpscr0, Bool.or_assoc] <;>
        (intro hzx
         try simp only [Bool.or_eq_true] at hzx ⊢
         tauto)
  · have g0 : gateOf (arithFlags op (arithSlotA s i 0) (arithSlotB op s i b0))
        s.fpscr = true := hn0.mp hp0
    refine ⟨fun hgate => by simp [g0] at hgate, fun _ => ?_, ?_⟩
    · simp only [psArithGeneric, hp0, hp1]
      cases hrc : i.rc <;> simp [hrc, hfpr1, hfpr0]
    · simp only [psArithGeneric, hp0, hp1, stickyEq]
      cases hrc : i.rc <;>
        simp [hrc, hfpscr1, hfpscr0, Bool.or_assoc] <;>
        (intro hzx
         try simp only [Bool.or_eq_true] at hzx ⊢
         tauto)
  · have g1 : gateOf (arithFlags op (arithSlotA s i 1) (arithSlotB op s i b1))
        s.fpscr = true := hn1.mp hp1
    refine ⟨fun hgate => by simp [g1] at hgate, fun _ => ?_, ?_⟩
    · simp only [psArithGeneric, hp0, hp1]
      cases hrc : i.rc <;> simp [hrc, hfpr1, hfpr0]
    · simp only [psArithGeneric, hp0, hp1, stickyEq]
      cases hrc : i.rc <;>
        simp [hrc, hfpscr1, hfpscr0, Bool.or_assoc] <;>
        (intro hzx
         try simp only [Bool.or_eq_true] at hzx ⊢
         tauto)
  · have g0 : gateOf (arithFlags op (arithSlotA s i 0) (arithSlotB op s i b0))
        s.fpscr = false := by
      cases hgf : gateOf (arithFlags op (arithSlotA s i 0) (arithSlotB op s i b0))
        s.fpscr
      · rfl
      · rw [hn0.mpr hgf] at hp0; cases hp0
    have g1 : gateOf (arithFlags op (arithSlotA s i 1) (arithSlotB op s i b1))
        s.fpscr = false := by
      cases hgf : gateOf (arithFlags op (arithSlotA s i 1) (arithSlotB op s i b1))
        s.fpscr
      · rfl
      · rw [hn1.mpr hgf] at hp1; cases hp1
    refine ⟨fun _ => ?_, fun hgate => by simp [g0, g1] at hgate, ?_⟩
    · simp only [psArithGeneric, arithWritten, hp0, hp1]
      cases hrc : i.rc <;> simp [hrc]
    · simp only [psArithGeneric, hp0, hp1, stickyEq]
      cases hrc : i.rc <;>
        simp [hrc, hfpscr1, hfpscr0, Bool.or_assoc] <;>
        (intro hzx
         try simp only [Bool.or_eq_true] at hzx ⊢
         tauto)

set_option maxHeartbeats 1000000 in
theorem fmaGeneric_spec (h : Host) (sub neg : Bool) (c0 c1 : Nat)
    (s : ThreadState) (i : Instr) :
    ((gateOf (fmaSlotFlags sub 0 c0 s i) s.fpscr ||
        gateOf (fmaSlotFlags sub 1 c1 s i) s.fpscr) = false →
      (fmaGeneric h sub neg c0 c1 s i).fpr i.frD = fmaWritten h sub neg c0 c1 s i) ∧
    ((gateOf (fmaSlotFlags sub 0 c0 s i) s.fpscr ||
        gateOf (fmaSlotFlags sub 1 c1 s i) s.fpscr) = true →
      (fmaGeneric h sub neg c0 c1 s i).fpr i.frD = s.fpr i.frD) ∧
    stickyEq s (fmaGeneric h sub neg c0 c1 s i)
      ((fmaSlotFlags sub 0 c0 s i).union (fmaSlotFlags sub 1 c1 s i)) := by
  have hfpr0 := fmaSingle_fpr h sub neg 0 c0 s i
  have hfpscr0 := fmaSingle_fpscr h sub neg 0 c0 s i
  have hfpr1 := fmaSingle_fpr h sub neg 1 c1 (fmaSingle h sub neg 0 c0 s i).1 i
  have hfpscr1 := fmaSingle_fpscr h sub neg 1 c1 (fmaSingle h sub neg 0 c0 s i).1 i
  have hFl1 := fmaSlotFlags_congr sub 1 c1 s (fmaSingle h sub neg 0 c0 s i).1 i hfpr0
  rw [hFl1] at hfpscr1
  have hn0 := fmaSingle_none_iff h sub neg 0 c0 s i
  have hn1 := fmaSingle_none_iff h sub neg 1 c1 (fmaSingle h sub neg 0 c0 s i).1 i
  rw [hFl1,
    gateOf_fpscr_congr _ _ s.fpscr (by rw [hfpscr0]; simp) (by rw [hfpscr0]; simp)]
    at hn1
  rcases hp0 : (fmaSingle h sub neg 0 c0 s i).2 with _ | d0 <;>
    rcases hp1 : (fmaSingle h sub neg 1 c1 (fmaSingle h sub neg 0 c0 s i).1 i).2
      with _ | d1
  · have g0 : gateOf (fmaSlotFlags sub 0 c0 s i) s.fpscr = true := hn0.mp hp0
    refine ⟨fun hgate => by simp [g0] at hgate, fun _ => ?_, ?_⟩
    · simp only [fmaGeneric, hp0, hp1]
      cases hrc : i.rc <;> simp [hrc, hfpr1, hfpr0]
    · simp only [fmaGeneric, hp0, hp1, stickyEq]
      cases hrc : i.rc <;>
        simp [hrc, hfpscr1, hfpscr0, Bool.or_assoc] <;>
        (intro hzx
         try simp only [Bool.or_eq_true] at hzx ⊢
         tauto)
  · have g0 : gateOf (fmaSlotFlags sub 0 c0 s i) s.fpscr = true := hn0.mp hp0
    refine ⟨fun hgate => by simp [g0] at hgate, fun _ => ?_, ?_⟩
    · simp only [fmaGeneric, hp0, hp1]
      cases hrc : i.rc <;> simp [hrc, hfpr1, hfpr0]
    · simp only [fmaGeneric, hp0, hp1, stickyEq]
      cases hrc : i.rc <;>
        simp [hrc, hfpscr1, hfpscr0, Bool.or_assoc] <;>
        (intro hzx
         try simp only [Bool.or_eq_true] at hzx ⊢
         tauto)
  · have g1 : gateOf (fmaSlotFlags sub 1 c1 s i) s.fpscr = true := hn1.mp hp1
    refine ⟨fun hgate => by simp [g1] at hgate, fun _ => ?_, ?_⟩
    · simp only [fmaGeneric, hp0, hp1]
      cases hrc : i.rc <;> simp [hrc, hfpr1, hfpr0]
    · simp only [fmaGeneric, hp0, hp1, stickyEq]
      cases hrc : i.rc <;>
        simp [hrc, hfpscr1, hfpscr0, Bool.or_assoc] <;>
        (intro hzx
         try simp only [Bool.or_eq_true] at hzx ⊢
         tauto)
  · have g0 : gateOf (fmaSlotFlags sub 0 c0 s i) s.fpscr = false := by
      cases hgf : gateOf (fmaSlotFlags sub 0 c0 s i) s.fpscr
      · rfl
      · rw [hn0.mpr hgf] at hp0; cases hp0
    have g1 : gateOf (fmaSlotFlags sub 1 c1 s i) s.fpscr = false := by
      cases hgf : gateOf (fmaSlotFlags sub 1 c1 s i) s.fpscr
      · rfl
      · rw [hn1.mpr hgf] at hp1; cases hp1
    refine ⟨fun _ => ?_, fun hgate => by simp [g0, g1] at hgate, ?_⟩
    · simp only [fmaGeneric, fmaWritten, hp0, hp1]
      cases hrc : i.rc <;> simp [hrc]
    · simp only [fmaGeneric, hp0, hp1, stickyEq]
      cases hrc : i.rc <;>
        simp [hrc, hfpscr1, hfpscr0, Bool.or_assoc] <;>
        (intro hzx
         try simp only [Bool.or_eq_true] at hzx ⊢
         tauto)

set_option maxHeartbeats 4000000 in
theorem ps_res_spec (h : Host) (s : ThreadState) (i : Instr) :
    ((is_signalling_nan (s.fpr i.frB).ps0 && s.fpscr.ve ||
        (is_zero (s.fpr i.frB).ps0 && s.fpscr.ze)) = false →
      (is_signalling_nan (extend_float (s.fpr i.frB).ps1) && s.fpscr.ve ||
        (is_zero (extend_float (s.fpr i.frB).ps1) && s.fpscr.ze)) = false →
      (ps_res h s i).fpr i.frD =
        ⟨extend_float (resSlotVal h (s.fpr i.frB).ps0),
         resSlotVal h (extend_float (s.fpr i.frB).ps1)⟩) ∧
    (((is_signalling_nan (s.fpr i.frB).ps0 && s.fpscr.ve ||
        (is_zero (s.fpr i.frB).ps0 && s.fpscr.ze)) = true ∨
      (is_signalling_nan (extend_float (s.fpr i.frB).ps1) && s.fpscr.ve ||
        (is_zero (extend_float (s.fpr i.frB).ps1) && s.fpscr.ze)) = true) →
      (ps_res h s i).fpr i.frD = s.fpr i.frD) ∧
    stickyEq s (ps_res h s i)
      ((resFlags (s.fpr i.frB).ps0).union
        (resFlags (extend_float (s.fpr i.frB).ps1))) := by
  refine ⟨fun hg0 hg1 => ?_, fun hg => ?_, ?_⟩
  · simp only [ps_res]
    cases hrc : i.rc <;>
      by_cases hn0 : is_nan (s.fpr i.frB).ps0 <;>
      by_cases hs0 : is_signalling_nan (s.fpr i.frB).ps0 <;>
      by_cases hn1 : is_nan (extend_float (s.fpr i.frB).ps1) <;>
      by_cases hs1 : is_signalling_nan (extend_float (s.fpr i.frB).ps1) <;>
      by_cases hz0 : is_zero (s.fpr i.frB).ps0 <;>
      by_cases hz1 : is_zero (extend_float (s.fpr i.frB).ps1) <;>
        simp_all [resSlotVal]
  · simp only [ps_res]
    cases hga : (is_signalling_nan (s.fpr i.frB).ps0 && s.fpscr.ve ||
        (is_zero (s.fpr i.frB).ps0 && s.fpscr.ze)) <;>
      cases hgb : (is_signalling_nan (extend_float (s.fpr i.frB).ps1) && s.fpscr.ve ||
        (is_zero (extend_float (s.fpr i.frB).ps1) && s.fpscr.ze)) <;>
      cases hrc : i.rc <;>
      by_cases hn0 : is_nan (s.fpr i.frB).ps0 <;>
      by_cases hs0 : is_signalling_nan (s.fpr i.frB).ps0 <;>
      by_cases hn1 : is_nan (extend_float (s.fpr i.frB).ps1) <;>
      by_cases hs1 : is_signalling_nan (extend_float (s.fpr i.frB).ps1) <;>
      by_cases hz0 : is_zero (s.fpr i.frB).ps0 <;>
      by_cases hz1 : is_zero (extend_float (s.fpr i.frB).ps1) <;>
        simp_all
  · simp only [ps_res, stickyEq]
    cases hv : s.fpscr.ve <;> cases hz : s.fpscr.ze <;>
      cases hrc : i.rc <;>
      by_cases hn0 : is_nan (s.fpr i.frB).ps0 <;>
      by_cases hs0 : is_signalling_nan (s.fpr i.frB).ps0 <;>
      by_cases hn1 : is_nan (extend_float (s.fpr i.frB).ps1) <;>
      by_cases hs1 : is_signalling_nan (extend_float (s.fpr i.frB).ps1) <;>
      by_cases hz0 : is_zero (s.fpr i.frB).ps0 <;>
      by_cases hz1 : is_zero (extend_float (s.fpr i.frB).ps1) <;>
        (simp_all [resFlags] <;>
          try (intro hzx
               try simp only [Bool.or_eq_true] at hzx ⊢
               tauto)) <;>
        try tauto

set_option maxHeartbeats 4000000 in
theorem ps_rsqrte_spec (h : Host) (s : ThreadState) (i : Instr) :
    (((is_signalling_nan (s.fpr i.frB).ps0 ||
        (!is_signalling_nan (s.fpr i.frB).ps0 && signbit (s.fpr i.frB).ps0 &&
          !is_zero (s.fpr i.frB).ps0)) && s.fpscr.ve ||
        (is_zero (s.fpr i.frB).ps0 && s.fpscr.ze)) = false →
      ((is_signalling_nan (extend_float (s.fpr i.frB).ps1) ||
        (!is_signalling_nan (extend_float (s.fpr i.frB).ps1) &&
          signbit (extend_float (s.fpr i.frB).ps1) &&
          !is_zero (extend_float (s.fpr i.frB).ps1))) && s.fpscr.ve ||
        (is_zero (extend_float (s.fpr i.frB).ps1) && s.fpscr.ze)) = false →
      (ps_rsqrte h s i).fpr i.frD =
        ⟨extend_float (rsqrteSlotVal h (s.fpr i.frB).ps0),
         rsqrteSlotVal h (extend_float (s.fpr i.frB).ps1)⟩) ∧
    ((((is_signalling_nan (s.fpr i.frB).ps0 ||
        (!is_signalling_nan (s.fpr i.frB).ps0 && signbit (s.fpr i.frB).ps0 &&
          !is_zero (s.fpr i.frB).ps0)) && s.fpscr.ve ||
        (is_zero (s.fpr i.frB).ps0 && s.fpscr.ze)) = true ∨
      ((is_signalling_nan (extend_float (s.fpr i.frB).ps1) ||
        (!is_signalling_nan (extend_float (s.fpr i.frB).ps1) &&
          signbit (extend_float (s.fpr i.frB).ps1) &&
          !is_zero (extend_float (s.fpr i.frB).ps1))) && s.fpscr.ve ||
        (is_zero (extend_float (s.fpr i.frB).ps1) && s.fpscr.ze)) = true) →
      (ps_rsqrte h s i).fpr i.frD = s.fpr i.frD) ∧
    stickyEq s (ps_rsqrte h s i)
      ((rsqrteFlags (s.fpr i.frB).ps0).union
        (rsqrteFlags (extend_float (s.fpr i.frB).ps1))) := by
  refine ⟨fun hg0 hg1 => ?_, fun hg => ?_, ?_⟩
  · simp only [ps_rsqrte]
    cases hrc : i.rc <;>
      by_cases hn0 : is_nan (s.fpr i.frB).ps0 <;>
      by_cases hX0 : (is_signalling_nan (s.fpr i.frB).ps0 ||
        (!is_signalling_nan (s.fpr i.frB).ps0 && signbit (s.fpr i.frB).ps0 &&
          !is_zero (s.fpr i.frB).ps0)) <;>
      by_cases hn1 : is_nan (extend_float (s.fpr i.frB).ps1) <;>
      by_cases hX1 : (is_signalling_nan (extend_float (s.fpr i.frB).ps1) ||
        (!is_signalling_nan (extend_float (s.fpr i.frB).ps1) &&
          signbit (extend_float (s.fpr i.frB).ps1) &&
          !is_zero (extend_float (s.fpr i.frB).ps1))) <;>
      by_cases hz0 : is_zero (s.fpr i.frB).ps0 <;>
      by_cases hz1 : is_zero (extend_float (s.fpr i.frB).ps1) <;>
        simp_all [rsqrteSlotVal]
  · simp only [ps_rsqrte]
    cases hv : s.fpscr.ve <;> cases hz : s.fpscr.ze <;>
      cases hrc : i.rc <;>
      by_cases hn0 : is_nan (s.fpr i.frB).ps0 <;>
      by_cases hX0 : (is_signalling_nan (s.fpr i.frB).ps0 ||
        (!is_signalling_nan (s.fpr i.frB).ps0 && signbit (s.fpr i.frB).ps0 &&
          !is_zero (s.fpr i.frB).ps0)) <;>
      by_cases hn1 : is_nan (extend_float (s.fpr i.frB).ps1) <;>
      by_cases hX1 : (is_signalling_nan (extend_float (s.fpr i.frB).ps1) ||
        (!is_signalling_nan (extend_float (s.fpr i.frB).ps1) &&
          signbit (extend_float (s.fpr i.frB).ps1) &&
          !is_zero (extend_float (s.fpr i.frB).ps1))) <;>
      by_cases hz0 : is_zero (s.fpr i.frB).ps0 <;>
      by_cases hz1 : is_zero (extend_float (s.fpr i.frB).ps1) <;>
        simp_all
  · simp only [ps_rsqrte, stickyEq]
    cases hv : s.fpscr.ve <;> cases hz : s.fpscr.ze <;>
      cases hrc : i.rc <;>
      by_cases hn0 : is_nan (s.fpr i.frB).ps0 <;>
      by_cases hX0 : (is_signalling_nan (s.fpr i.frB).ps0 ||
        (!is_signalling_nan (s.fpr i.frB).ps0 && signbit (s.fpr i.frB).ps0 &&
          !is_zero (s.fpr i.frB).ps0)) <;>
      by_cases hn1 : is_nan (extend_float (s.fpr i.frB).ps1) <;>
      by_cases hX1 : (is_signalling_nan (extend_float (s.fpr i.frB).ps1) ||
        (!is_signalling_nan (extend_float (s.fpr i.frB).ps1) &&
          signbit (extend_float (s.fpr i.frB).ps1) &&
          !is_zero (extend_float (s.fpr i.frB).ps1))) <;>
      by_cases hz0 : is_zero (s.fpr i.frB).ps0 <;>
      by_cases hz1 : is_zero (extend_float (s.fpr i.frB).ps1) <;>
        (simp_all [rsqrteFlags] <;>
          try (intro hzx
               try simp only [Bool.or_eq_true] at hzx ⊢
               tauto)) <;>
        try tauto

set_option maxHeartbeats 2000000 in
theorem psSumGeneric_spec (h : Host) (slot : Nat) (s : ThreadState) (i : Instr) :
    (gateOf (arithFlags PSAdd (arithSlotA s i 0) (arithSlotB PSAdd s i 1))
        s.fpscr = false →
      (psSumGeneric h slot s i).fpr i.frD = sumWritten h slot s i) ∧
    (gateOf (arithFlags PSAdd (arithSlotA s i 0) (arithSlotB PSAdd s i 1))
        s.fpscr = true →
      (psSumGeneric h slot s i).fpr i.frD = s.fpr i.frD) ∧
    stickyEq s (psSumGeneric h slot s i)
      ((arithFlags PSAdd (arithSlotA s i 0) (arithSlotB PSAdd s i 1)).union
        emptyFlags) := by
  have hfpr0 := psArithSingle_fpr h PSAdd 0 1 s i
  have hfpscr0 := psArithSingle_fpscr h PSAdd 0 1 s i
  have hn0 := psArithSingle_none_iff h PSAdd 0 1 s i
  rcases hp : (psArithSingle h PSAdd 0 1 s i).2 with _ | d
  · have g0 := hn0.mp hp
    refine ⟨fun hgate => by simp [g0] at hgate, fun _ => ?_, ?_⟩
    · simp only [psSumGeneric, hp]
      cases hrc : i.rc <;> simp [hrc, hfpr0]
    · simp only [psSumGeneric, hp, stickyEq]
      cases hrc : i.rc <;>
        simp [hrc, hfpscr0, emptyFlags] <;>
        (intro hzx
         try simp only [Bool.or_eq_true] at hzx ⊢
         tauto)
  · have g0 : gateOf (arithFlags PSAdd (arithSlotA s i 0) (arithSlotB PSAdd s i 1))
        s.fpscr = false := by
      cases hgf : gateOf (arithFlags PSAdd (arithSlotA s i 0)
        (arithSlotB PSAdd s i 1)) s.fpscr
      · rfl
      · rw [hn0.mpr hgf] at hp; cases hp
    refine ⟨fun _ => ?_, fun hgate => by simp [g0] at hgate, ?_⟩
    · simp only [psSumGeneric, sumWritten, hp]
      cases hrc : i.rc <;> by_cases hsl : slot = 0 <;>
        by_cases hn : is_nan ((s.fpr i.frC).ps0) <;>
        simp [hrc, hsl, hn, hfpr0]
    · simp only [psSumGeneric, hp, stickyEq]
      cases hrc : i.rc <;> by_cases hsl : slot = 0 <;>
        by_cases hn : is_nan ((s.fpr i.frC).ps0) <;>
        simp [hrc, hsl, hn, hfpscr0, hfpr0, emptyFlags] <;>
        (intro hzx
         try simp only [Bool.or_eq_true] at hzx ⊢
         tauto)

/-- C1: for every paired-single instruction that writes frD under an
exception gate (`ps_add/sub/mul/div/muls0/muls1`, the FMA family,
`ps_sum0/sum1`, `ps_res`, `ps_rsqrte`) and every starting state: if no
enabled exception gate triggers in either slot, both lanes of frD are
written (with the computed slot values); if a gate triggers in either slot,
neither lane of frD is modified; and in both cases the raised FPSCR sticky
flags are still accumulated. -/
theorem claim1_write_gating (k : PSKind) (h : Host) (s : ThreadState)
    (i : Instr) :
    (psGateTriggered k s i = false →
      (execPS k h s i).fpr i.frD = psWrittenValue k h s i) ∧
    (psGateTriggered k s i = true →
      (execPS k h s i).fpr i.frD = s.fpr i.frD) ∧
    stickyEq s (execPS k h s i) (psRaisedFlags k s i) := by
  have eres0 : gateOf (resFlags (s.fpr i.frB).ps0) s.fpscr =
      (is_signalling_nan (s.fpr i.frB).ps0 && s.fpscr.ve ||
        (is_zero (s.fpr i.frB).ps0 && s.fpscr.ze)) := by
    simp [gateOf, resFlags, ArithFlags.vxAny]
  have eres1 : gateOf (resFlags (extend_float (s.fpr i.frB).ps1)) s.fpscr =
      (is_signalling_nan (extend_float (s.fpr i.frB).ps1) && s.fpscr.ve ||
        (is_zero (extend_float (s.fpr i.frB).ps1) && s.fpscr.ze)) := by
    simp [gateOf, resFlags, ArithFlags.vxAny]
  have ers0 : gateOf (rsqrteFlags (s.fpr i.frB).ps0) s.fpscr =
      ((is_signalling_nan (s.fpr i.frB).ps0 ||
        (!is_signalling_nan (s.fpr i.frB).ps0 && signbit (s.fpr i.frB).ps0 &&
          !is_zero (s.fpr i.frB).ps0)) && s.fpscr.ve ||
        (is_zero (s.fpr i.frB).ps0 && s.fpscr.ze)) := by
    simp [gateOf, rsqrteFlags, ArithFlags.vxAny]
  have ers1 : gateOf (rsqrteFlags (extend_float (s.fpr i.frB).ps1)) s.fpscr =
      ((is_signalling_nan (extend_float (s.fpr i.frB).ps1) ||
        (!is_signalling_nan (extend_float (s.fpr i.frB).ps1) &&
          signbit (extend_float (s.fpr i.frB).ps1) &&
          !is_zero (extend_float (s.fpr i.frB).ps1))) && s.fpscr.ve ||
        (is_zero (extend_float (s.fpr i.frB).ps1) && s.fpscr.ze)) := by
    simp [gateOf, rsqrteFlags, ArithFlags.vxAny]
  cases k
  case add => exact psArithGeneric_spec h PSAdd 0 1 s i
  case sub => exact psArithGeneric_spec h PSSub 0 1 s i
  case mul => exact psArithGeneric_spec h PSMul 0 1 s i
  case div => exact psArithGeneric_spec h PSDiv 0 1 s i
  case muls0 => exact psArithGeneric_spec h PSMul 0 0 s i
  case muls1 => exact psArithGeneric_spec h PSMul 1 1 s i
  case sum0 =>
    obtain ⟨w1, w2, w3⟩ := psSumGeneric_spec h 0 s i
    refine ⟨fun hgate => ?_, fun hgate => ?_, w3⟩
    · simp only [psGateTriggered, psSlotFlags, emptyFlags_gateOf,
        Bool.or_false] at hgate
      exact w1 hgate
    · simp only [psGateTriggered, psSlotFlags, emptyFlags_gateOf,
        Bool.or_false] at hgate
      exact w2 hgate
  case sum1 =>
    obtain ⟨w1, w2, w3⟩ := psSumGeneric_spec h 1 s i
    refine ⟨fun hgate => ?_, fun hgate => ?_, w3⟩
    · simp only [psGateTriggered, psSlotFlags, emptyFlags_gateOf,
        Bool.or_false] at hgate
      exact w1 hgate
    · simp only [psGateTriggered, psSlotFlags, emptyFlags_gateOf,
        Bool.or_false] at hgate
      exact w2 hgate
  case madd => exact fmaGeneric_spec h false false 0 1 s i
  case madds0 => exact fmaGeneric_spec h false false 0 0 s i
  case madds1 => exact fmaGeneric_spec h false false 1 1 s i
  case msub => exact fmaGeneric_spec h true false 0 1 s i
  case nmadd => exact fmaGeneric_spec h false true 0 1 s i
  case nmsub => exact fmaGeneric_spec h true true 0 1 s i
  case res =>
    obtain ⟨w1, w2, w3⟩ := ps_res_spec h s i
    refine ⟨fun hgate => ?_, fun hgate => ?_, w3⟩
    · simp only [psGateTriggered, psSlotFlags, eres0, eres1] at hgate
      obtain ⟨hga, hgb⟩ := Bool.or_eq_false_iff.mp hgate
      exact w1 hga hgb
    · simp only [psGateTriggered, psSlotFlags, eres0, eres1] at hgate
      exact w2 (Bool.or_eq_true_iff.mp hgate)
  case rsqrte =>
    obtain ⟨w1, w2, w3⟩ := ps_rsqrte_spec h s i
    refine ⟨fun hgate => ?_, fun hgate => ?_, w3⟩
    · simp only [psGateTriggered, psSlotFlags, ers0, ers1] at hgate
      obtain ⟨hga, hgb⟩ := Bool.or_eq_false_iff.mp hgate
      exact w1 hga hgb
    · simp only [psGateTriggered, psSlotFlags, ers0, ers1] at hgate
      exact w2 (Bool.or_eq_true_iff.mp hgate)

/-- C1 witness: on the zero state no gate triggers for `ps_add` and both
lanes of frD receive the computed pair. -/
theorem claim1_write_gating_witness :
    (execPS .add pointHost state0 ⟨1, 2, 3, 4, false⟩).fpr 4 =
      psWrittenValue .add pointHost state0 ⟨1, 2, 3, 4, false⟩ :=
  (claim1_write_gating .add pointHost state0 ⟨1, 2, 3, 4, false⟩).1 (by decide)

/-! ## C2: JIT fmadds versus interpreter fma -/

/-- C2 counterexample: on clean inputs (three finite double values, shown
double-exact by the `roundDouble` fixed-point conjuncts), the JIT path
(`mulsd` then `addsd`, two double roundings, then the narrow) and the
interpreter path (one fused rounding, then the narrow) produce different
single-precision values: with a = 8 + 2^-24, b = 1 + 2^-24 − 64 − 2^-21 −
2^-23 and c = 8 + 2^-26, the interpreter returns 1 + 2^-23 and the JIT
returns 1. -/
theorem claim2_jit_counterexample :
    roundDouble ⟨2 ^ 27 + 1, -24⟩ = ⟨2 ^ 27 + 1, -24⟩ ∧
    roundDouble ⟨2 ^ 24 - 2 ^ 30 - 9, -24⟩ = ⟨2 ^ 24 - 2 ^ 30 - 9, -24⟩ ∧
    roundDouble ⟨2 ^ 29 + 1, -26⟩ = ⟨2 ^ 29 + 1, -26⟩ ∧
    fmaddsJitValue ⟨2 ^ 27 + 1, -24⟩ ⟨2 ^ 24 - 2 ^ 30 - 9, -24⟩ ⟨2 ^ 29 + 1, -26⟩ ≠
      fmaddsInterpValue ⟨2 ^ 27 + 1, -24⟩ ⟨2 ^ 24 - 2 ^ 30 - 9, -24⟩
        ⟨2 ^ 29 + 1, -26⟩ := by
  refine ⟨by decide, by decide, by decide, by decide⟩

/-- C2 (amended): the JIT-compiled path produces bit-for-bit the same
destination value as the interpreter whenever the double rounding of the
product a·c is exact — in particular for paired-single operands, whose
lanes are f32 values with at most 24-bit significands, so the 48-bit double
product is exact.  In general the JIT performs two rounding steps (`mulsd`
then `addsd`) rather than the interpreter's single-stage fused
multiply-add, and the two paths can differ in the last bit. -/
theorem claim2_jit_interp_agree (a b c : Dy)
    (hexact : roundDouble (dyMul a c) = dyMul a c) :
    fmaddsJitValue a b c = fmaddsInterpValue a b c := by
  unfold fmaddsJitValue fmaddsInterpValue
  rw [hexact]

/-- C2 witness: at small integer operands the product is double-exact and
the two paths agree. -/
theorem claim2_jit_interp_agree_witness :
    fmaddsJitValue ⟨3, 0⟩ ⟨7, 0⟩ ⟨5, 0⟩ = fmaddsInterpValue ⟨3, 0⟩ ⟨7, 0⟩ ⟨5, 0⟩ :=
  claim2_jit_interp_agree ⟨3, 0⟩ ⟨7, 0⟩ ⟨5, 0⟩ (by decide)

/-- C6 counterexample: for an sNaN whose payload has nonzero low mantissa
bits, `ps_mr` does not reproduce the source bit pattern (the truncation
loses the low payload bits), so the claimed XOR relation fails as stated for
arbitrary signalling NaNs. -/
theorem claim6_move_counterexample :
    is_signalling_nan
      (((setFpr state0 2 ⟨0x7FF0000000000001, 0⟩).fpr 2).ps0) = true ∧
    ((ps_mr (setFpr state0 2 ⟨0x7FF0000000000001, 0⟩)
        ⟨1, 2, 3, 4, false⟩).fpr 4).ps0 ^^^
      ((setFpr state0 2 ⟨0x7FF0000000000001, 0⟩).fpr 2).ps0 ≠ 0 := by decide

end PairedSingle
